import Mathlib

/-!
One-dimensional lookup table (`LookupTable1D`)

A shallow embedding of `src/src/lookup_table1d.cpp` and `src/include/lookup_table1d.h`.

* `double` values are rationals (exact arithmetic), Eigen vectors are lists of rationals.
* `std::size_t` / `Eigen::Index` values are natural numbers; an index expression such as
  `index - 1` is computed over the integers, so that the wrapped value a C++ program obtains
  from `0 - 1` (converted to the signed `Eigen::Index`) is the negative index `-1`.
* A coefficient access outside `0 .. size-1` is undefined in C++; it is `none` here, and
  every function that reads the table returns an `Option`.
* Member functions that change the object take the object and return the new object.
-/

set_option linter.dupNamespace false

namespace LookupTable

/-- Result of `SetTable` (the cpp file names `SetState::success`, `remain`, `fail`). -/
inductive SetState where
  | success
  | remain
  | fail
  deriving DecidableEq, Repr

/-- Modelled from the spec: the enumerators of `SearchMethod`, declared in the absent
`lookup_table_dependencies.h` (Sequential, Binary, Hint-based "near"). -/
inductive SearchMethod where
  | seq
  | bin
  | near
  deriving DecidableEq, Repr

/-- Modelled from the spec: the enumerators of `InterpMethod`, declared in the absent
`lookup_table_dependencies.h`; the names are those of the `switch` in `Interpolation`. -/
inductive InterpMethod where
  | linear
  | nearest
  | next
  | previous
  deriving DecidableEq, Repr

/-- Modelled from the spec: the enumerators of `ExtrapMethod`, declared in the absent
`lookup_table_dependencies.h`; the names are those of the `switch` in `Extrapolation`. -/
inductive ExtrapMethod where
  | clip
  | linear
  | specify
  deriving DecidableEq, Repr

/-- The private enumeration `TableState` of the header. -/
inductive TableState where
  | empty
  | size_not_match
  | size_invalid
  | x_not_increase
  | valid
  deriving DecidableEq, Repr

/-- The data members of `LookupTable1D`. -/
structure LookupTable1D where
  x_table_ : List ℚ
  y_table_ : List ℚ
  x_value_ : ℚ
  lookup_result_ : ℚ
  prelook_index_ : Nat
  search_method_ : SearchMethod
  interp_method_ : InterpMethod
  extrap_method_ : ExtrapMethod
  table_empty_ : Bool
  table_valid_ : Bool
  set_value_success_ : Bool
  table_size_ : Nat
  lower_extrap_value_specify_ : ℚ
  upper_extrap_value_specify_ : ℚ

/-- The constant member `max_table_size_ = 1000000`. -/
def max_table_size_ : Nat := 1000000

/-- The default-constructed object: the in-class member initialisers of the header. -/
def construct : LookupTable1D :=
  { x_table_ := []
    y_table_ := []
    x_value_ := 0
    lookup_result_ := 0
    prelook_index_ := 0
    search_method_ := SearchMethod.bin
    interp_method_ := InterpMethod.linear
    extrap_method_ := ExtrapMethod.clip
    table_empty_ := true
    table_valid_ := false
    set_value_success_ := false
    table_size_ := 0
    lower_extrap_value_specify_ := 0
    upper_extrap_value_specify_ := 0 }

/-- Coefficient access `v[i]` / `v(i)`: defined for `0 ≤ i < v.size()` only. -/
def coeff (v : List ℚ) (i : Int) : Option ℚ :=
  if i < 0 then none else v[i.toNat]?

/-- Modelled from the spec: `isStrictlyIncreasing` is declared in the header and its body is
absent from the sources; the spec's invariant is `x[i] < x[i+1]` for all `i`. -/
def isStrictlyIncreasing : List ℚ → Bool
  | [] => true
  | [_] => true
  | a :: b :: t => decide (a < b) && isStrictlyIncreasing (b :: t)

/-- The ordered state check of `CheckTableState`. -/
def CheckTableState (input_vector1 input_vector2 : List ℚ) : TableState :=
  if input_vector1.length = 0 ∨ input_vector2.length = 0 then
    TableState.empty
  else if input_vector1.length > max_table_size_ ∨ input_vector1.length < 2 then
    TableState.size_invalid
  else if input_vector1.length ≠ input_vector2.length then
    TableState.size_not_match
  else if !isStrictlyIncreasing input_vector1 then
    TableState.x_not_increase
  else
    TableState.valid

/-- The member `ClearTable`: both vectors resized to 0, empty flag set, size 0; returns true. -/
def ClearTable (s : LookupTable1D) : LookupTable1D × Bool :=
  ({ s with x_table_ := [], y_table_ := [], table_empty_ := true, table_size_ := 0 }, true)

/-- The member `RefreshTableState`. -/
def RefreshTableState (s : LookupTable1D) : LookupTable1D :=
  let s1 := { s with
    table_valid_ := decide (CheckTableState s.x_table_ s.y_table_ = TableState.valid) }
  if s1.table_valid_ then
    { s1 with table_empty_ := false, table_size_ := s1.x_table_.length }
  else if !s1.table_empty_ then
    (ClearTable s1).1
  else
    s1

/-- The member `SetTable` (the `std::vector` overload converts and calls this one). -/
def SetTable (s : LookupTable1D) (x_table y_table : List ℚ) : LookupTable1D × SetState :=
  if CheckTableState x_table y_table = TableState.valid then
    (RefreshTableState { s with x_table_ := x_table, y_table_ := y_table }, SetState.success)
  else
    let s1 := { s with
      table_valid_ := decide (CheckTableState s.x_table_ s.y_table_ = TableState.valid) }
    (s1, if s1.table_valid_ then SetState.remain else SetState.fail)

/-- The overload `SetExtrapMethod(method)`: reads `y_table_(0)` and
`y_table_(y_table_.size() - 1)` when the valid flag is set. -/
def SetExtrapMethod (s : LookupTable1D) (method : ExtrapMethod) : Option LookupTable1D :=
  let s1 := { s with extrap_method_ := method }
  if s1.table_valid_ then do
    let lo ← coeff s1.y_table_ 0
    let s2 := { s1 with lower_extrap_value_specify_ := lo }
    let hi ← coeff s2.y_table_ ((s2.y_table_.length : Int) - 1)
    pure { s2 with upper_extrap_value_specify_ := hi }
  else
    some s1

/-- The overload `SetExtrapMethod(method, lower_value, upper_value)`. -/
def SetExtrapMethodBounds (s : LookupTable1D) (method : ExtrapMethod)
    (lower_value upper_value : ℚ) : LookupTable1D :=
  { s with extrap_method_ := method
           lower_extrap_value_specify_ := lower_value
           upper_extrap_value_specify_ := upper_value }

/-- The member `PreLookup`. The function `SearchIndex` it calls is not part of the sources and
is a parameter; its result is a `size_t`, so the test `prelook_index >= 0` always holds. -/
def PreLookup (SearchIndex : ℚ → List ℚ → SearchMethod → Nat → Nat)
    (s : LookupTable1D) (x_value : ℚ) : LookupTable1D × Nat :=
  let prelook_index := SearchIndex x_value s.x_table_ s.search_method_ s.prelook_index_
  if 0 ≤ prelook_index ∧ prelook_index ≤ s.x_table_.length then
    ({ s with prelook_index_ := prelook_index }, prelook_index)
  else
    (s, s.prelook_index_)

/-- The member `InterpolationLinear`; the tolerance `epsilon_` is not part of the sources and
is a parameter. -/
def InterpolationLinear (epsilon_ : ℚ) (s : LookupTable1D) (index : Nat) (x_value : ℚ) :
    Option ℚ := do
  let x1 ← coeff s.x_table_ ((index : Int) - 1)
  let x2 ← coeff s.x_table_ (index : Int)
  let y1 ← coeff s.y_table_ ((index : Int) - 1)
  let y2 ← coeff s.y_table_ (index : Int)
  let equal_zero : Bool := decide (|x2 - x1| < epsilon_)
  let weight : ℚ := if equal_zero then 1 / 2 else (x_value - x1) / (x2 - x1)
  pure (y1 + weight * (y2 - y1))

/-- The member `InterpolationNearest`. -/
def InterpolationNearest (s : LookupTable1D) (index : Nat) (x_value : ℚ) : Option ℚ := do
  let xa ← coeff s.x_table_ ((index : Int) - 1)
  let xb ← coeff s.x_table_ (index : Int)
  if x_value - xa ≤ xb - x_value then
    coeff s.y_table_ ((index : Int) - 1)
  else
    coeff s.y_table_ (index : Int)

/-- The member `InterpolationNext`. -/
def InterpolationNext (s : LookupTable1D) (index : Nat) (_x_value : ℚ) : Option ℚ :=
  coeff s.y_table_ (index : Int)

/-- The member `InterpolationPrevious`. -/
def InterpolationPrevious (s : LookupTable1D) (index : Nat) (_x_value : ℚ) : Option ℚ :=
  coeff s.y_table_ ((index : Int) - 1)

/-- The member `Interpolation`: dispatch on the selected method. The `default:` label of the
`switch` is not reached by any enumerator. -/
def Interpolation (epsilon_ : ℚ) (s : LookupTable1D) (index : Nat) (x_value : ℚ) : Option ℚ :=
  match s.interp_method_ with
  | InterpMethod.linear => InterpolationLinear epsilon_ s index x_value
  | InterpMethod.nearest => InterpolationNearest s index x_value
  | InterpMethod.next => InterpolationNext s index x_value
  | InterpMethod.previous => InterpolationPrevious s index x_value

/-- The member `ExtrapolationClip`. -/
def ExtrapolationClip (s : LookupTable1D) (index : Nat) : Option ℚ :=
  if index = 0 then
    coeff s.y_table_ 0
  else if index = s.table_size_ then
    coeff s.y_table_ ((s.y_table_.length : Int) - 1)
  else
    some s.lookup_result_

/-- The member `ExtrapolationLinear`. -/
def ExtrapolationLinear (epsilon_ : ℚ) (s : LookupTable1D) (index : Nat) (x_value : ℚ) :
    Option ℚ :=
  if index = 0 then do
    let x1 ← coeff s.x_table_ 0
    let x2 ← coeff s.x_table_ 1
    let y1 ← coeff s.y_table_ 0
    let y2 ← coeff s.y_table_ 1
    let equal_zero : Bool := decide (|x2 - x1| < epsilon_)
    let weight : ℚ := if equal_zero then 1 / 2 else (x_value - x1) / (x2 - x1)
    pure (y1 + weight * (y2 - y1))
  else if index = s.table_size_ then do
    let x1 ← coeff s.x_table_ ((s.table_size_ : Int) - 2)
    let x2 ← coeff s.x_table_ ((s.table_size_ : Int) - 1)
    let y1 ← coeff s.y_table_ ((s.table_size_ : Int) - 2)
    let y2 ← coeff s.y_table_ ((s.table_size_ : Int) - 1)
    let equal_zero : Bool := decide (|x2 - x1| < epsilon_)
    let weight : ℚ := if equal_zero then 1 / 2 else (x_value - x1) / (x2 - x1)
    pure (y1 + weight * (y2 - y1))
  else
    some s.lookup_result_

/-- The member `ExtrapolationSpecify`. -/
def ExtrapolationSpecify (s : LookupTable1D) (index : Nat)
    (lower_extrap_value upper_extrap_value : ℚ) : Option ℚ :=
  if index = 0 then
    some lower_extrap_value
  else if index = s.table_size_ then
    some upper_extrap_value
  else
    some s.lookup_result_

/-- The member `Extrapolation`: dispatch on the selected method. The `default:` label of the
`switch` is not reached by any enumerator. -/
def Extrapolation (epsilon_ : ℚ) (s : LookupTable1D) (index : Nat) (x_value : ℚ) : Option ℚ :=
  match s.extrap_method_ with
  | ExtrapMethod.clip => ExtrapolationClip s index
  | ExtrapMethod.linear => ExtrapolationLinear epsilon_ s index x_value
  | ExtrapMethod.specify =>
      ExtrapolationSpecify s index s.lower_extrap_value_specify_ s.upper_extrap_value_specify_

/-- The member `LookupTable` (the spec's `Evaluate`): the new object and the returned value. -/
def LookupTable (SearchIndex : ℚ → List ℚ → SearchMethod → Nat → Nat) (epsilon_ : ℚ)
    (s : LookupTable1D) (x_value : ℚ) : Option (LookupTable1D × ℚ) :=
  if s.table_valid_ then
    let p := PreLookup SearchIndex s x_value
    let s1 := p.1
    let index := p.2
    if index = 0 ∨ index = s1.table_size_ then do
      let r ← Extrapolation epsilon_ s1 index x_value
      let s2 := { s1 with lookup_result_ := r, x_value_ := x_value }
      pure (s2, s2.lookup_result_)
    else do
      let r ← Interpolation epsilon_ s1 index x_value
      let s2 := { s1 with lookup_result_ := r, x_value_ := x_value }
      pure (s2, s2.lookup_result_)
  else
    let s1 := RefreshTableState s
    some (s1, s1.lookup_result_)

/-- States reachable from the default-constructed object by `SetTable`, `ClearTable`,
`SetExtrapMethod` (both overloads) and `LookupTable` calls whose behaviour is defined. -/
inductive Reachable (SearchIndex : ℚ → List ℚ → SearchMethod → Nat → Nat) (epsilon_ : ℚ) :
    LookupTable1D → Prop where
  | construct : Reachable SearchIndex epsilon_ construct
  | setTable (s : LookupTable1D) (x_table y_table : List ℚ) :
      Reachable SearchIndex epsilon_ s →
      Reachable SearchIndex epsilon_ (SetTable s x_table y_table).1
  | clearTable (s : LookupTable1D) :
      Reachable SearchIndex epsilon_ s → Reachable SearchIndex epsilon_ (ClearTable s).1
  | setExtrapMethod (s s1 : LookupTable1D) (method : ExtrapMethod) :
      Reachable SearchIndex epsilon_ s → SetExtrapMethod s method = some s1 →
      Reachable SearchIndex epsilon_ s1
  | setExtrapMethodBounds (s : LookupTable1D) (method : ExtrapMethod)
      (lower_value upper_value : ℚ) :
      Reachable SearchIndex epsilon_ s →
      Reachable SearchIndex epsilon_ (SetExtrapMethodBounds s method lower_value upper_value)
  | lookupTable (s s1 : LookupTable1D) (x_value r : ℚ) :
      Reachable SearchIndex epsilon_ s →
      LookupTable SearchIndex epsilon_ s x_value = some (s1, r) →
      Reachable SearchIndex epsilon_ s1

/-- The strict monotonicity invariant in the spec's words: `x[i] < x[i+1]` for all `i`. -/
def StrictlyIncreasing (x : List ℚ) : Prop :=
  ∀ (i : Nat) (h : i + 1 < x.length), x[i] < x[i + 1]

/-- The table invariants in the spec's words: both sequences non-empty, `2 ≤ n ≤ 1,000,000`,
equal lengths, `x` strictly increasing. -/
def ValidPair (x y : List ℚ) : Prop :=
  x.length ≠ 0 ∧ y.length ≠ 0 ∧ 2 ≤ x.length ∧ x.length ≤ 1000000 ∧
    x.length = y.length ∧ StrictlyIncreasing x

/-- The state after scenario 1 of the spec: `SetTable([0,1,2,3], [0,10,20,30])` on a
default-constructed object. -/
def scenario1 : LookupTable1D := (SetTable construct [0, 1, 2, 3] [0, 10, 20, 30]).1

/-- The table fields of `s1` are those of `s`: stored pair, flags and size field. -/
def SameTable (s s1 : LookupTable1D) : Prop :=
  s1.x_table_ = s.x_table_ ∧ s1.y_table_ = s.y_table_ ∧ s1.table_empty_ = s.table_empty_ ∧
    s1.table_valid_ = s.table_valid_ ∧ s1.table_size_ = s.table_size_

/-- The table is either in the empty state, or holds a valid pair with consistent flags. -/
def TableInvariant (s : LookupTable1D) : Prop :=
  (s.x_table_ = [] ∧ s.y_table_ = [] ∧ s.table_empty_ = true ∧ s.table_size_ = 0) ∨
  (ValidPair s.x_table_ s.y_table_ ∧ s.table_empty_ = false ∧
    s.table_size_ = s.x_table_.length ∧ s.table_valid_ = true)

/-- A valid two-sample table whose only segment is narrower than the tolerance `1/1000000`:
`SetTable([0, 1/2000000], [0, 1])` on a default-constructed object. -/
def narrowTable : LookupTable1D := (SetTable construct [0, 1 / 2000000] [0, 1]).1

/-- A search that answers 4 on a four-sample table and the out-of-range index 7 on every other
table; used to exercise the fallback of `PreLookup`. -/
def staleSearch : ℚ → List ℚ → SearchMethod → Nat → Nat :=
  fun _ x_table _ _ => if x_table.length = 4 then 4 else 7

/-- States reached from a state by `SetTable`, `ClearTable` and defined `LookupTable` calls
only, that is, without a call that sets the extrapolation method or its constants. -/
inductive LaterState (SearchIndex : ℚ → List ℚ → SearchMethod → Nat → Nat) (epsilon_ : ℚ)
    (s : LookupTable1D) : LookupTable1D → Prop where
  | same : LaterState SearchIndex epsilon_ s s
  | setTable (t : LookupTable1D) (x_table y_table : List ℚ) :
      LaterState SearchIndex epsilon_ s t →
      LaterState SearchIndex epsilon_ s (SetTable t x_table y_table).1
  | clearTable (t : LookupTable1D) :
      LaterState SearchIndex epsilon_ s t → LaterState SearchIndex epsilon_ s (ClearTable t).1
  | lookupTable (t t1 : LookupTable1D) (x_value r : ℚ) :
      LaterState SearchIndex epsilon_ s t →
      LookupTable SearchIndex epsilon_ t x_value = some (t1, r) →
      LaterState SearchIndex epsilon_ s t1

/-- The extrapolation settings of `t` are those of `s`: method and both constants. -/
def SameExtrap (s t : LookupTable1D) : Prop :=
  t.extrap_method_ = s.extrap_method_ ∧
    t.lower_extrap_value_specify_ = s.lower_extrap_value_specify_ ∧
    t.upper_extrap_value_specify_ = s.upper_extrap_value_specify_

/-- Modelled from the spec: `SearchIndexSequential` is declared in the header and its body is
absent from the sources. The spec: "linear scan from index 0 until the first sample exceeding
the query"; the result is the index of that sample, and `n` when no sample exceeds the
query. -/
def SearchIndexSequential (value : ℚ) : List ℚ → Nat
  | [] => 0
  | a :: t => if value < a then 0 else SearchIndexSequential value t + 1

/-- Modelled from the spec: the loop of `SearchIndexBinary`, "classic binary search over the
sorted x array": the bracket is sought between `lo` and `hi` and the interval is halved at
`mid` in each step; `fuel` bounds the number of steps. -/
def binarySearchLoop (value : ℚ) (x_table : List ℚ) : Nat → Nat → Nat → Nat
  | 0, lo, _ => lo
  | fuel + 1, lo, hi =>
    if lo < hi then
      match x_table[lo + (hi - lo) / 2]? with
      | some a =>
        if value < a then binarySearchLoop value x_table fuel lo (lo + (hi - lo) / 2)
        else binarySearchLoop value x_table fuel (lo + (hi - lo) / 2 + 1) hi
      | none => lo
    else lo

/-- Modelled from the spec: `SearchIndexBinary` is declared in the header and its body is absent
from the sources; binary search between 0 and `n`, with more steps allowed than it needs. -/
def SearchIndexBinary (value : ℚ) (x_table : List ℚ) : Nat :=
  binarySearchLoop value x_table (x_table.length + 1) 0 x_table.length

/-- Modelled from the spec: the downward scan of `SearchIndexNear`: from the index `i`, step
down while the sample below the bracket exceeds the query (a position without a sample counts
as beyond the table). -/
def nearDown (value : ℚ) (x_table : List ℚ) : Nat → Nat
  | 0 => 0
  | i + 1 =>
    match x_table[i]? with
    | some a => if value < a then nearDown value x_table i else i + 1
    | none => nearDown value x_table i

/-- Modelled from the spec: the upward scan of `SearchIndexNear`: from the index `i`, step up
while the sample at the bracket does not exceed the query; `fuel` bounds the number of
steps. -/
def nearUp (value : ℚ) (x_table : List ℚ) : Nat → Nat → Nat
  | 0, i => i
  | fuel + 1, i =>
    match x_table[i]? with
    | some a => if value < a then i else nearUp value x_table fuel (i + 1)
    | none => i

/-- Modelled from the spec: `SearchIndexNear` is declared in the header and its body is absent
from the sources. The spec: "starts scanning from the previously resolved bracket index and
expands outward". -/
def SearchIndexNear (value : ℚ) (x_table : List ℚ) (last_index : Nat) : Nat :=
  nearUp value x_table x_table.length (nearDown value x_table last_index)

/-- Modelled from the spec: the function `SearchIndex(value, x_table, method, last_index)` that
`PreLookup` calls is absent from the sources; it selects one of the three strategies. -/
def SearchIndex (value : ℚ) (x_table : List ℚ) (method : SearchMethod) (last_index : Nat) :
    Nat :=
  match method with
  | SearchMethod.seq => SearchIndexSequential value x_table
  | SearchMethod.bin => SearchIndexBinary value x_table
  | SearchMethod.near => SearchIndexNear value x_table last_index

/-- The interpolation-bracket condition of the spec, `x[c-1] ≤ query < x[c]`, read at every
position of the table: `c ≤ n`, every sample below position `c` is at most the query and every
sample from position `c` on exceeds it (so a query equal to `x[0]` has bracket 1). -/
def IsBracket (value : ℚ) (x_table : List ℚ) (c : Nat) : Prop :=
  c ≤ x_table.length ∧ ∀ (j : Nat) (a : ℚ), x_table[j]? = some a → (value < a ↔ c ≤ j)

/-! ## Auxiliary lemmas -/

theorem strictlyIncreasing_cons_cons (a b : ℚ) (t : List ℚ) :
    StrictlyIncreasing (a :: b :: t) ↔ a < b ∧ StrictlyIncreasing (b :: t) := by
  constructor
  · intro h
    refine ⟨?_, ?_⟩
    · have := h 0 (by simp)
      simpa using this
    · intro i hi
      have := h (i + 1) (by simp at hi ⊢; omega)
      simpa using this
  · rintro ⟨hab, ht⟩ i hi
    cases i with
    | zero => simpa using hab
    | succ k =>
      have := ht k (by simp at hi ⊢; omega)
      simpa using this

theorem isStrictlyIncreasing_iff (x : List ℚ) :
    isStrictlyIncreasing x = true ↔ StrictlyIncreasing x := by
  induction x with
  | nil => simp [isStrictlyIncreasing, StrictlyIncreasing]
  | cons a t ih =>
    cases t with
    | nil => simp [isStrictlyIncreasing, StrictlyIncreasing]
    | cons b u =>
      rw [strictlyIncreasing_cons_cons, ← ih]
      simp [isStrictlyIncreasing]

theorem checkTableState_valid_iff (x y : List ℚ) :
    CheckTableState x y = TableState.valid ↔ ValidPair x y := by
  unfold CheckTableState ValidPair
  rw [← isStrictlyIncreasing_iff]
  simp only [max_table_size_]
  split_ifs with h1 h2 h3 h4
  · simp; omega
  · simp; omega
  · simp; omega
  · simp at h4; simp [h4]
  · simp at h4
    have h5 : x.length = y.length := by omega
    have h6 : TableState.valid = TableState.valid := rfl
    refine iff_of_true h6 ⟨?_, ?_, ?_, ?_, h5, h4⟩ <;> omega

theorem validPair_scenario1 : ValidPair [0, 1, 2, 3] [0, 10, 20, 30] := by
  rw [← checkTableState_valid_iff]
  norm_num [CheckTableState, isStrictlyIncreasing, max_table_size_]

theorem not_validPair_of_length_ne (x y : List ℚ) (h : x.length ≠ y.length) :
    ¬ ValidPair x y := fun hv => h hv.2.2.2.2.1

theorem setTable_of_valid (s : LookupTable1D) (x y : List ℚ) (h : ValidPair x y) :
    SetTable s x y =
      ({ s with x_table_ := x, y_table_ := y, table_valid_ := true, table_empty_ := false,
                table_size_ := x.length }, SetState.success) := by
  have hc := (checkTableState_valid_iff x y).2 h
  simp [SetTable, RefreshTableState, hc]

theorem setTable_of_not_valid (s : LookupTable1D) (x y : List ℚ) (h : ¬ ValidPair x y) :
    SetTable s x y =
      ({ s with
          table_valid_ := decide (CheckTableState s.x_table_ s.y_table_ = TableState.valid) },
        if CheckTableState s.x_table_ s.y_table_ = TableState.valid then SetState.remain
        else SetState.fail) := by
  have hc : ¬ CheckTableState x y = TableState.valid := fun hv =>
    h ((checkTableState_valid_iff x y).1 hv)
  simp [SetTable, hc]

theorem scenario1_eq :
    scenario1 =
      { construct with
          x_table_ := [0, 1, 2, 3]
          y_table_ := [0, 10, 20, 30]
          table_valid_ := true
          table_empty_ := false
          table_size_ := 4 } := by
  unfold scenario1
  rw [setTable_of_valid _ _ _ validPair_scenario1]
  rfl

/-! ## C1 – C5 : `SetTable` and `CheckTableState` -/

/-- C1: `SetTable` returns `success` exactly when the candidate pair satisfies the table
invariants (both non-empty, `2 ≤ len x ≤ 1,000,000`, equal lengths, `x` strictly increasing),
and on `success` the stored pair is the candidate, the valid flag is true, the empty flag is
false and the size field is `len x`. -/
theorem SetTable_success_iff_valid (s : LookupTable1D) (x y : List ℚ) :
    ((SetTable s x y).2 = SetState.success ↔ ValidPair x y) ∧
    ((SetTable s x y).2 = SetState.success →
      (SetTable s x y).1.x_table_ = x ∧ (SetTable s x y).1.y_table_ = y ∧
      (SetTable s x y).1.table_valid_ = true ∧ (SetTable s x y).1.table_empty_ = false ∧
      (SetTable s x y).1.table_size_ = x.length) := by
  by_cases h : ValidPair x y
  · rw [setTable_of_valid s x y h]
    simp [h]
  · rw [setTable_of_not_valid s x y h]
    have hne : (if CheckTableState s.x_table_ s.y_table_ = TableState.valid then SetState.remain
        else SetState.fail) ≠ SetState.success := by
      split_ifs <;> simp
    simp [h, hne]

/-- Scenario 1 of the spec: `SetTable([0,1,2,3], [0,10,20,30])` on a fresh object is a
`success` and stores the pair. -/
theorem SetTable_success_iff_valid_witness :
    (SetTable construct [0, 1, 2, 3] [0, 10, 20, 30]).2 = SetState.success ∧
    (SetTable construct [0, 1, 2, 3] [0, 10, 20, 30]).1.x_table_ = [0, 1, 2, 3] ∧
    (SetTable construct [0, 1, 2, 3] [0, 10, 20, 30]).1.y_table_ = [0, 10, 20, 30] ∧
    (SetTable construct [0, 1, 2, 3] [0, 10, 20, 30]).1.table_valid_ = true ∧
    (SetTable construct [0, 1, 2, 3] [0, 10, 20, 30]).1.table_empty_ = false ∧
    (SetTable construct [0, 1, 2, 3] [0, 10, 20, 30]).1.table_size_ = 4 :=
  have h := SetTable_success_iff_valid construct [0, 1, 2, 3] [0, 10, 20, 30]
  ⟨h.1.2 validPair_scenario1, h.2 (h.1.2 validPair_scenario1)⟩

/-- C2: a candidate pair that is not valid (in particular one with `len x ≠ len y`) leaves the
stored `x` and `y` as they were; and when the stored table was valid before the call (valid
flag true, stored pair valid) the valid flag, the empty flag and the size field are unchanged
too. -/
theorem SetTable_rejected_keeps_table (s : LookupTable1D) (x y : List ℚ)
    (h : ¬ ValidPair x y ∨ x.length ≠ y.length) :
    (SetTable s x y).1.x_table_ = s.x_table_ ∧ (SetTable s x y).1.y_table_ = s.y_table_ ∧
    (s.table_valid_ = true → ValidPair s.x_table_ s.y_table_ →
      (SetTable s x y).1.table_valid_ = s.table_valid_ ∧
      (SetTable s x y).1.table_empty_ = s.table_empty_ ∧
      (SetTable s x y).1.table_size_ = s.table_size_) := by
  have hn : ¬ ValidPair x y := by
    rcases h with h | h
    · exact h
    · exact not_validPair_of_length_ne x y h
  rw [setTable_of_not_valid s x y hn]
  refine ⟨rfl, rfl, ?_⟩
  intro hflag hstored
  have hc := (checkTableState_valid_iff _ _).2 hstored
  simp [hc, hflag]

/-- Scenario 5 of the spec: the mismatched pair `([1,2],[1])` offered to the table of
scenario 1 changes neither the stored data nor the flags. -/
theorem SetTable_rejected_keeps_table_witness :
    (SetTable scenario1 [1, 2] [1]).1.x_table_ = scenario1.x_table_ ∧
    (SetTable scenario1 [1, 2] [1]).1.y_table_ = scenario1.y_table_ ∧
    (SetTable scenario1 [1, 2] [1]).1.table_valid_ = scenario1.table_valid_ ∧
    (SetTable scenario1 [1, 2] [1]).1.table_empty_ = scenario1.table_empty_ ∧
    (SetTable scenario1 [1, 2] [1]).1.table_size_ = scenario1.table_size_ :=
  have h := SetTable_rejected_keeps_table scenario1 [1, 2] [1] (Or.inr (by decide))
  ⟨h.1, h.2.1,
   h.2.2 (by rw [scenario1_eq]) (by rw [scenario1_eq]; exact validPair_scenario1)⟩

/-- C3: for a candidate pair that is not valid, `SetTable` returns `remain` when the stored
pair passes `CheckTableState` as `valid` and `fail` otherwise, and afterwards the valid flag is
true exactly when the stored pair is valid. -/
theorem SetTable_rejected_result (s : LookupTable1D) (x y : List ℚ) (h : ¬ ValidPair x y) :
    (CheckTableState s.x_table_ s.y_table_ = TableState.valid →
      (SetTable s x y).2 = SetState.remain) ∧
    (CheckTableState s.x_table_ s.y_table_ ≠ TableState.valid →
      (SetTable s x y).2 = SetState.fail) ∧
    ((SetTable s x y).1.table_valid_ = true ↔
      ValidPair (SetTable s x y).1.x_table_ (SetTable s x y).1.y_table_) := by
  rw [setTable_of_not_valid s x y h]
  refine ⟨?_, ?_, ?_⟩
  · intro hc
    simp [hc]
  · intro hc
    simp [hc]
  · simp [checkTableState_valid_iff]

/-- A rejected candidate on a fresh object gives `fail`, on the table of scenario 1 it gives
`remain`. -/
theorem SetTable_rejected_result_witness :
    (SetTable construct [1, 2] [1]).2 = SetState.fail ∧
    (SetTable scenario1 [1, 2] [1]).2 = SetState.remain :=
  ⟨(SetTable_rejected_result construct [1, 2] [1]
      (not_validPair_of_length_ne _ _ (by decide))).2.1 (by decide),
   (SetTable_rejected_result scenario1 [1, 2] [1]
      (not_validPair_of_length_ne _ _ (by decide))).1
      (by rw [scenario1_eq]; exact (checkTableState_valid_iff _ _).2 validPair_scenario1)⟩

/-- C4 as stated fails: on the table of scenario 1, `SetTable([1,2],[1])` does not return
`fail`. -/
theorem SetTable_mismatch_not_fail :
    ¬ ((SetTable scenario1 [1, 2] [1]).2 = SetState.fail ∧
       (SetTable scenario1 [1, 2] [1]).1.x_table_ = [0, 1, 2, 3] ∧
       (SetTable scenario1 [1, 2] [1]).1.y_table_ = [0, 10, 20, 30] ∧
       (SetTable scenario1 [1, 2] [1]).1.table_valid_ = true) := by
  rw [setTable_of_not_valid _ _ _ (not_validPair_of_length_ne _ _ (by decide)), scenario1_eq]
  have hc := (checkTableState_valid_iff _ _).2 validPair_scenario1
  simp [hc]

/-- C4 (amended): on the table of scenario 1, `SetTable([1,2],[1])` returns `remain`, and
afterwards the original table is still stored and the valid flag is still true. -/
theorem SetTable_mismatch_remain :
    (SetTable scenario1 [1, 2] [1]).2 = SetState.remain ∧
    (SetTable scenario1 [1, 2] [1]).1.x_table_ = [0, 1, 2, 3] ∧
    (SetTable scenario1 [1, 2] [1]).1.y_table_ = [0, 10, 20, 30] ∧
    (SetTable scenario1 [1, 2] [1]).1.table_valid_ = true := by
  rw [setTable_of_not_valid _ _ _ (not_validPair_of_length_ne _ _ (by decide)), scenario1_eq]
  have hc := (checkTableState_valid_iff _ _).2 validPair_scenario1
  simp [hc]

/-- C5: `CheckTableState` returns the first matching case of the ordered procedure: `empty`
when either length is 0; else `size_invalid` when `len x < 2` or `len x > 1,000,000` (whether
or not the lengths agree); else `size_not_match` when the lengths differ; else
`x_not_increase` when `x` is not strictly increasing; else `valid`. For `x = [0,2,1,3]` and
every `y` of length 4 the result is `x_not_increase`. -/
theorem CheckTableState_ordered (x y : List ℚ) :
    (x.length = 0 ∨ y.length = 0 → CheckTableState x y = TableState.empty) ∧
    (¬ (x.length = 0 ∨ y.length = 0) → (x.length < 2 ∨ x.length > 1000000) →
      CheckTableState x y = TableState.size_invalid) ∧
    (¬ (x.length = 0 ∨ y.length = 0) → ¬ (x.length < 2 ∨ x.length > 1000000) →
      x.length ≠ y.length → CheckTableState x y = TableState.size_not_match) ∧
    (¬ (x.length = 0 ∨ y.length = 0) → ¬ (x.length < 2 ∨ x.length > 1000000) →
      x.length = y.length → ¬ StrictlyIncreasing x →
      CheckTableState x y = TableState.x_not_increase) ∧
    (¬ (x.length = 0 ∨ y.length = 0) → ¬ (x.length < 2 ∨ x.length > 1000000) →
      x.length = y.length → StrictlyIncreasing x →
      CheckTableState x y = TableState.valid) ∧
    (y.length = 4 → CheckTableState [0, 2, 1, 3] y = TableState.x_not_increase) := by
  refine ⟨?_, ?_, ?_, ?_, ?_, ?_⟩
  · intro h1
    simp only [CheckTableState, if_pos h1]
  · intro h1 h2
    have h2' : x.length > max_table_size_ ∨ x.length < 2 := by
      unfold max_table_size_; omega
    simp only [CheckTableState, if_neg h1, if_pos h2']
  · intro h1 h2 h3
    have h2' : ¬ (x.length > max_table_size_ ∨ x.length < 2) := by
      unfold max_table_size_; omega
    simp only [CheckTableState, if_neg h1, if_neg h2', if_pos h3]
  · intro h1 h2 h3 h4
    have h2' : ¬ (x.length > max_table_size_ ∨ x.length < 2) := by
      unfold max_table_size_; omega
    have h4' : isStrictlyIncreasing x = false := by
      cases hb : isStrictlyIncreasing x with
      | false => rfl
      | true => exact absurd ((isStrictlyIncreasing_iff x).1 hb) h4
    have h3' : ¬ x.length ≠ y.length := not_not.2 h3
    simp only [CheckTableState, if_neg h1, if_neg h2', if_neg h3', h4']
    rfl
  · intro h1 h2 h3 h4
    have h2' : ¬ (x.length > max_table_size_ ∨ x.length < 2) := by
      unfold max_table_size_; omega
    have h4' := (isStrictlyIncreasing_iff x).2 h4
    have h3' : ¬ x.length ≠ y.length := not_not.2 h3
    simp only [CheckTableState, if_neg h1, if_neg h2', if_neg h3', h4']
    rfl
  · intro h
    simp [CheckTableState, isStrictlyIncreasing, max_table_size_, h]

/-- The non-monotonic `x = [0,2,1,3]` is classified `x_not_increase` with `y = [5,6,7,8]`, and
a one-sample pair is `size_invalid` although the lengths agree. -/
theorem CheckTableState_ordered_witness :
    CheckTableState [0, 2, 1, 3] [5, 6, 7, 8] = TableState.x_not_increase ∧
    CheckTableState [7] [9] = TableState.size_invalid :=
  ⟨(CheckTableState_ordered [0, 2, 1, 3] [5, 6, 7, 8]).2.2.2.2.2 rfl,
   (CheckTableState_ordered [7] [9]).2.1 (by decide) (by decide)⟩

/-! ## The invariant of reachable states -/

theorem checkTableState_nil : CheckTableState [] [] = TableState.empty := by
  simp [CheckTableState]

theorem tableInvariant_of_sameTable (s s1 : LookupTable1D) (h : SameTable s s1)
    (hs : TableInvariant s) : TableInvariant s1 := by
  obtain ⟨hx, hy, he, hv, hn⟩ := h
  unfold TableInvariant
  rw [hx, hy, he, hv, hn]
  exact hs

theorem setExtrapMethod_sameTable (s s1 : LookupTable1D) (method : ExtrapMethod)
    (h : SetExtrapMethod s method = some s1) : SameTable s s1 := by
  unfold SetExtrapMethod at h
  by_cases hv : s.table_valid_ = true
  · simp only [hv, if_true] at h
    cases h0 : coeff s.y_table_ 0 with
    | none => simp [h0] at h
    | some lo =>
      cases h1 : coeff s.y_table_ ((s.y_table_.length : Int) - 1) with
      | none => simp [h0, h1] at h
      | some hi =>
        simp [h0, h1] at h
        subst h
        simp [SameTable, hv]
  · have hv' : s.table_valid_ = false := by simpa using hv
    simp [hv'] at h
    subst h
    simp [SameTable, hv']

theorem preLookup_sameTable (SearchIndex : ℚ → List ℚ → SearchMethod → Nat → Nat)
    (s : LookupTable1D) (x_value : ℚ) : SameTable s (PreLookup SearchIndex s x_value).1 := by
  unfold PreLookup
  simp only []
  split_ifs <;> simp [SameTable]

theorem lookupTable_of_not_valid (SearchIndex : ℚ → List ℚ → SearchMethod → Nat → Nat)
    (epsilon_ : ℚ) (s : LookupTable1D) (x_value : ℚ) (hv : s.table_valid_ = false) :
    LookupTable SearchIndex epsilon_ s x_value =
      some (RefreshTableState s, (RefreshTableState s).lookup_result_) := by
  simp [LookupTable, hv]

theorem lookupTable_sameTable (SearchIndex : ℚ → List ℚ → SearchMethod → Nat → Nat)
    (epsilon_ : ℚ) (s s1 : LookupTable1D) (x_value r : ℚ) (hv : s.table_valid_ = true)
    (h : LookupTable SearchIndex epsilon_ s x_value = some (s1, r)) : SameTable s s1 := by
  have hp := preLookup_sameTable SearchIndex s x_value
  unfold LookupTable at h
  simp only [hv, if_true] at h
  split_ifs at h
  · cases he : Extrapolation epsilon_ (PreLookup SearchIndex s x_value).1
        (PreLookup SearchIndex s x_value).2 x_value with
    | none => simp [he] at h
    | some v =>
      simp [he] at h
      rw [← h.1]
      exact hp
  · cases he : Interpolation epsilon_ (PreLookup SearchIndex s x_value).1
        (PreLookup SearchIndex s x_value).2 x_value with
    | none => simp [he] at h
    | some v =>
      simp [he] at h
      rw [← h.1]
      exact hp

theorem refreshTableState_invariant (s : LookupTable1D) (hs : TableInvariant s) :
    TableInvariant (RefreshTableState s) := by
  rcases hs with ⟨hx, hy, he, hn⟩ | ⟨hp, he, hn, _⟩
  · left
    simp [RefreshTableState, hx, hy, he, hn, checkTableState_nil]
  · right
    have hc := (checkTableState_valid_iff _ _).2 hp
    simp [RefreshTableState, hc, hp]

theorem setTable_invariant (s : LookupTable1D) (x y : List ℚ) (hs : TableInvariant s) :
    TableInvariant (SetTable s x y).1 := by
  by_cases h : ValidPair x y
  · rw [setTable_of_valid s x y h]
    right
    exact ⟨h, rfl, rfl, rfl⟩
  · rw [setTable_of_not_valid s x y h]
    rcases hs with ⟨hx, hy, he, hn⟩ | ⟨hp, he, hn, _⟩
    · left
      exact ⟨hx, hy, he, hn⟩
    · right
      have hc := (checkTableState_valid_iff _ _).2 hp
      exact ⟨hp, he, hn, by simp [hc]⟩

theorem reachable_invariant (SearchIndex : ℚ → List ℚ → SearchMethod → Nat → Nat)
    (epsilon_ : ℚ) (s : LookupTable1D) (h : Reachable SearchIndex epsilon_ s) :
    TableInvariant s := by
  induction h with
  | construct => left; exact ⟨rfl, rfl, rfl, rfl⟩
  | setTable s x y _ ih => exact setTable_invariant s x y ih
  | clearTable s _ _ => left; exact ⟨rfl, rfl, rfl, rfl⟩
  | setExtrapMethod s s1 m _ hm ih =>
    exact tableInvariant_of_sameTable s s1 (setExtrapMethod_sameTable s s1 m hm) ih
  | setExtrapMethodBounds s m lo hi _ ih =>
    exact tableInvariant_of_sameTable s _ ⟨rfl, rfl, rfl, rfl, rfl⟩ ih
  | lookupTable s s1 q r _ hl ih =>
    by_cases hv : s.table_valid_ = true
    · exact tableInvariant_of_sameTable s s1 (lookupTable_sameTable _ _ s s1 q r hv hl) ih
    · have hv' : s.table_valid_ = false := by simpa using hv
      rw [lookupTable_of_not_valid _ _ s q hv'] at hl
      simp at hl
      rw [← hl.1]
      exact refreshTableState_invariant s ih

/-! ## Lemmas on `LookupTable` and its parts -/

theorem coeff_nil (i : Int) : coeff [] i = none := by
  unfold coeff
  split_ifs <;> simp

theorem coeff_natCast (v : List ℚ) (i : Nat) : coeff v (i : Int) = v[i]? := by
  simp [coeff]

theorem coeff_length_sub_one (v : List ℚ) (h : 0 < v.length) :
    coeff v ((v.length : Int) - 1) = v[v.length - 1]? := by
  have h1 : ((v.length : Int) - 1) = ((v.length - 1 : Nat) : Int) := by omega
  rw [h1, coeff_natCast]

theorem preLookup_fst (SearchIndex : ℚ → List ℚ → SearchMethod → Nat → Nat)
    (s : LookupTable1D) (x_value : ℚ) :
    (PreLookup SearchIndex s x_value).1 =
      { s with prelook_index_ := (PreLookup SearchIndex s x_value).2 } := by
  unfold PreLookup
  simp only []
  split_ifs <;> rfl

theorem interpolation_nil (epsilon_ : ℚ) (s : LookupTable1D) (index : Nat) (x_value : ℚ)
    (hx : s.x_table_ = []) (hy : s.y_table_ = []) :
    Interpolation epsilon_ s index x_value = none := by
  unfold Interpolation
  cases s.interp_method_ <;>
    simp [InterpolationLinear, InterpolationNearest, InterpolationNext, InterpolationPrevious,
      hx, hy, coeff_nil]

theorem extrapolation_zero_nil (epsilon_ : ℚ) (s : LookupTable1D) (x_value : ℚ)
    (hx : s.x_table_ = []) (hy : s.y_table_ = [])
    (hm : s.extrap_method_ ≠ ExtrapMethod.specify) :
    Extrapolation epsilon_ s 0 x_value = none := by
  unfold Extrapolation
  cases hk : s.extrap_method_ with
  | clip => simp [ExtrapolationClip, hy, coeff_nil]
  | linear => simp [ExtrapolationLinear, hx, coeff_nil]
  | specify => exact absurd hk hm

theorem refreshTableState_memory (s : LookupTable1D) :
    (RefreshTableState s).lookup_result_ = s.lookup_result_ ∧
    (RefreshTableState s).x_value_ = s.x_value_ ∧
    (RefreshTableState s).prelook_index_ = s.prelook_index_ := by
  unfold RefreshTableState
  simp only []
  split_ifs <;> exact ⟨rfl, rfl, rfl⟩

/-! ## C6 – C10 : `ClearTable`, `LookupTable` and clip extrapolation -/

/-- C6 (what the code does): `ClearTable` leaves the valid flag set, so a `LookupTable` call
after `ClearTable` on a valid table does not return the cached result: it takes the
table-valid branch and, with clip or linear extrapolation selected, reads a coefficient of the
now empty vectors, whatever the search returns. -/
theorem LookupTable_after_ClearTable_undefined
    (SearchIndex : ℚ → List ℚ → SearchMethod → Nat → Nat) (epsilon_ : ℚ)
    (s : LookupTable1D) (x_value : ℚ) (hv : s.table_valid_ = true)
    (hm : s.extrap_method_ ≠ ExtrapMethod.specify) :
    LookupTable SearchIndex epsilon_ (ClearTable s).1 x_value = none := by
  have hv' : (ClearTable s).1.table_valid_ = true := hv
  have hp := preLookup_fst SearchIndex (ClearTable s).1 x_value
  have hx : (PreLookup SearchIndex (ClearTable s).1 x_value).1.x_table_ = [] :=
    (congrArg LookupTable1D.x_table_ hp).trans rfl
  have hy : (PreLookup SearchIndex (ClearTable s).1 x_value).1.y_table_ = [] :=
    (congrArg LookupTable1D.y_table_ hp).trans rfl
  have hn : (PreLookup SearchIndex (ClearTable s).1 x_value).1.table_size_ = 0 :=
    (congrArg LookupTable1D.table_size_ hp).trans rfl
  have he : (PreLookup SearchIndex (ClearTable s).1 x_value).1.extrap_method_ =
      s.extrap_method_ := (congrArg LookupTable1D.extrap_method_ hp).trans rfl
  unfold LookupTable
  simp only [hv', if_true]
  split_ifs with hi
  · have h0 : (PreLookup SearchIndex (ClearTable s).1 x_value).2 = 0 := by
      rcases hi with hi | hi
      · exact hi
      · rw [hn] at hi
        exact hi
    rw [h0, extrapolation_zero_nil epsilon_ _ x_value hx hy (by rw [he]; exact hm)]
    rfl
  · rw [interpolation_nil epsilon_ _ _ x_value hx hy]
    rfl

/-- After scenario 1, `ClearTable()` then `Evaluate(1.5)` is an out-of-bounds read, with a
search that answers 0 for the empty table. -/
theorem LookupTable_after_ClearTable_undefined_witness :
    scenario1.table_valid_ = true ∧
    LookupTable (fun _ _ _ _ => 0) (1 / 1000000) (ClearTable scenario1).1 (3 / 2) = none :=
  ⟨by rw [scenario1_eq],
   LookupTable_after_ClearTable_undefined (fun _ _ _ _ => 0) (1 / 1000000) scenario1 (3 / 2)
    (by rw [scenario1_eq]) (by rw [scenario1_eq]; simp [construct])⟩

/-- C7 (what the code does): after `SetTable([0,1,2,3],[0,10,20,30])` and `ClearTable()`, a
reachable state, the valid flag is still true although the stored pair is empty and does not
satisfy the table invariants. -/
theorem ClearTable_keeps_valid_flag :
    (∀ (SearchIndex : ℚ → List ℚ → SearchMethod → Nat → Nat) (epsilon_ : ℚ),
      Reachable SearchIndex epsilon_ (ClearTable scenario1).1) ∧
    (ClearTable scenario1).1.table_valid_ = true ∧
    (ClearTable scenario1).1.x_table_ = [] ∧ (ClearTable scenario1).1.y_table_ = [] ∧
    ¬ ValidPair (ClearTable scenario1).1.x_table_ (ClearTable scenario1).1.y_table_ := by
  refine ⟨?_, ?_, rfl, rfl, ?_⟩
  · intro SearchIndex epsilon_
    exact Reachable.clearTable _ (Reachable.setTable _ _ _ Reachable.construct)
  · show scenario1.table_valid_ = true
    rw [scenario1_eq]
  · intro h
    exact h.1 rfl

/-- C8: when the valid flag is false, `LookupTable` returns the cached last result and leaves
the cached result, the cached query and the stored bracket index unchanged; on a
default-constructed object it returns 0 for every query. -/
theorem LookupTable_invalid_returns_cached
    (SearchIndex : ℚ → List ℚ → SearchMethod → Nat → Nat) (epsilon_ : ℚ)
    (s : LookupTable1D) (x_value : ℚ) (hv : s.table_valid_ = false) :
    (∃ s1, LookupTable SearchIndex epsilon_ s x_value = some (s1, s.lookup_result_) ∧
      s1.lookup_result_ = s.lookup_result_ ∧ s1.x_value_ = s.x_value_ ∧
      s1.prelook_index_ = s.prelook_index_) ∧
    (∀ x : ℚ, ∃ s1, LookupTable SearchIndex epsilon_ construct x = some (s1, 0)) := by
  constructor
  · refine ⟨RefreshTableState s, ?_, refreshTableState_memory s⟩
    rw [lookupTable_of_not_valid _ _ s x_value hv, (refreshTableState_memory s).1]
  · intro x
    refine ⟨RefreshTableState construct, ?_⟩
    rw [lookupTable_of_not_valid _ _ construct x rfl, (refreshTableState_memory construct).1]
    rfl

/-- A default-constructed object answers `Evaluate(7)` with 0 and keeps its memory. -/
theorem LookupTable_invalid_returns_cached_witness :
    construct.table_valid_ = false ∧
    ∃ s1, LookupTable (fun _ _ _ _ => 0) (1 / 1000000) construct 7 = some (s1, 0) ∧
      s1.lookup_result_ = 0 ∧ s1.x_value_ = 0 ∧ s1.prelook_index_ = 0 :=
  ⟨rfl, (LookupTable_invalid_returns_cached (fun _ _ _ _ => 0) (1 / 1000000) construct 7 rfl).1⟩

/-- C9: in every reachable state, when `SetTable` returns `fail` the table is in the empty
state afterwards: both stored sequences have length 0, the empty flag is true and the size
field is 0. -/
theorem SetTable_fail_empty_state
    (SearchIndex : ℚ → List ℚ → SearchMethod → Nat → Nat) (epsilon_ : ℚ)
    (s : LookupTable1D) (hr : Reachable SearchIndex epsilon_ s) (x y : List ℚ)
    (hf : (SetTable s x y).2 = SetState.fail) :
    (SetTable s x y).1.x_table_.length = 0 ∧ (SetTable s x y).1.y_table_.length = 0 ∧
    (SetTable s x y).1.table_empty_ = true ∧ (SetTable s x y).1.table_size_ = 0 := by
  by_cases h : ValidPair x y
  · rw [setTable_of_valid s x y h] at hf
    simp at hf
  · rw [setTable_of_not_valid s x y h] at hf ⊢
    rcases reachable_invariant SearchIndex epsilon_ s hr with ⟨hx, hy, he, hn⟩ | ⟨hp, _, _, _⟩
    · simp [hx, hy, he, hn]
    · have hc := (checkTableState_valid_iff _ _).2 hp
      simp [hc] at hf

/-- On a default-constructed object `SetTable([1,2],[1])` returns `fail` and the table is in
the empty state. -/
theorem SetTable_fail_empty_state_witness :
    (SetTable construct [1, 2] [1]).2 = SetState.fail ∧
    (SetTable construct [1, 2] [1]).1.x_table_.length = 0 ∧
    (SetTable construct [1, 2] [1]).1.y_table_.length = 0 ∧
    (SetTable construct [1, 2] [1]).1.table_empty_ = true ∧
    (SetTable construct [1, 2] [1]).1.table_size_ = 0 :=
  ⟨by decide,
   SetTable_fail_empty_state (fun _ _ _ _ => 0) (1 / 1000000) construct Reachable.construct
    [1, 2] [1] (by decide)⟩

/-- C10: for a valid table of `n` samples (size field `n`) with clip selected, extrapolation
with bracket 0 returns `y[0]` and with bracket `n` returns `y[n-1]`, for every query. -/
theorem Extrapolation_clip_boundary (epsilon_ : ℚ) (s : LookupTable1D)
    (hp : ValidPair s.x_table_ s.y_table_) (hn : s.table_size_ = s.x_table_.length)
    (hc : s.extrap_method_ = ExtrapMethod.clip) :
    ∃ y0 yn : ℚ, s.y_table_[0]? = some y0 ∧ s.y_table_[s.x_table_.length - 1]? = some yn ∧
      ∀ x_value : ℚ, Extrapolation epsilon_ s 0 x_value = some y0 ∧
        Extrapolation epsilon_ s s.x_table_.length x_value = some yn := by
  obtain ⟨_, _, h2, _, hxy, _⟩ := hp
  have hy0 : 0 < s.y_table_.length := by omega
  have hy1 : s.y_table_.length - 1 < s.y_table_.length := by omega
  refine ⟨s.y_table_[0], s.y_table_[s.y_table_.length - 1], ?_, ?_, ?_⟩
  · exact List.getElem?_eq_getElem hy0
  · rw [hxy]
    exact List.getElem?_eq_getElem hy1
  · intro x_value
    have hne : ¬ s.x_table_.length = 0 := by omega
    constructor
    · simp only [Extrapolation, hc, ExtrapolationClip, if_true]
      have := coeff_natCast s.y_table_ 0
      simp only [Nat.cast_zero] at this
      rw [this]
      exact List.getElem?_eq_getElem hy0
    · simp only [Extrapolation, hc, ExtrapolationClip, if_neg hne, hn, if_true]
      rw [coeff_length_sub_one _ hy0]
      exact List.getElem?_eq_getElem hy1

/-- Scenario 2 of the spec: on the table `[0,1,2,3], [0,10,20,30]` with clip, bracket 0 with
query -1 gives 0 and bracket 4 with query 5 gives 30. -/
theorem Extrapolation_clip_boundary_witness :
    Extrapolation (1 / 1000000) scenario1 0 (-1) = some 0 ∧
    Extrapolation (1 / 1000000) scenario1 4 5 = some 30 := by
  obtain ⟨y0, yn, h0, h1, hq⟩ := Extrapolation_clip_boundary (1 / 1000000) scenario1
    (by rw [scenario1_eq]; exact validPair_scenario1) (by rw [scenario1_eq]; rfl)
    (by rw [scenario1_eq]; rfl)
  rw [scenario1_eq] at h0 h1
  simp at h0 h1
  subst h0
  subst h1
  have hlen : scenario1.x_table_.length = 4 := by rw [scenario1_eq]; rfl
  have h := hq 5
  rw [hlen] at h
  exact ⟨(hq (-1)).1, h.2⟩

/-! ## Lemmas on the reads of a valid table -/

theorem coeff_pred (v : List ℚ) (i : Nat) (h : 0 < i) :
    coeff v ((i : Int) - 1) = v[i - 1]? := by
  have h1 : ((i : Int) - 1) = ((i - 1 : Nat) : Int) := by omega
  rw [h1, coeff_natCast]

theorem validPair_segment (x y : List ℚ) (hp : ValidPair x y) (i : Nat) (h0 : 0 < i)
    (hn : i < x.length) :
    ∃ x1 x2 y1 y2 : ℚ, x[i - 1]? = some x1 ∧ x[i]? = some x2 ∧ y[i - 1]? = some y1 ∧
      y[i]? = some y2 ∧ x1 < x2 := by
  obtain ⟨_, _, _, _, hxy, hinc⟩ := hp
  obtain ⟨k, rfl⟩ : ∃ k, i = k + 1 := ⟨i - 1, by omega⟩
  have hk : k < x.length := by omega
  have hyk : k < y.length := by omega
  have hyk1 : k + 1 < y.length := by omega
  refine ⟨x[k], x[k + 1], y[k], y[k + 1], ?_, ?_, ?_, ?_, hinc k hn⟩
  · simp
  · exact List.getElem?_eq_getElem hn
  · simp
  · exact List.getElem?_eq_getElem hyk1

theorem interpolationLinear_eq (epsilon_ : ℚ) (s : LookupTable1D) (i : Nat) (q : ℚ)
    (h0 : 0 < i) (x1 x2 y1 y2 : ℚ) (hx1 : s.x_table_[i - 1]? = some x1)
    (hx2 : s.x_table_[i]? = some x2) (hy1 : s.y_table_[i - 1]? = some y1)
    (hy2 : s.y_table_[i]? = some y2) :
    InterpolationLinear epsilon_ s i q =
      some (y1 + (if |x2 - x1| < epsilon_ then 1 / 2 else (q - x1) / (x2 - x1)) * (y2 - y1)) := by
  unfold InterpolationLinear
  rw [coeff_pred _ _ h0, coeff_natCast, coeff_pred _ _ h0, coeff_natCast, hx1, hx2, hy1, hy2]
  simp

theorem blend_between (y1 y2 w : ℚ) (h0 : 0 ≤ w) (h1 : w ≤ 1) :
    min y1 y2 ≤ y1 + w * (y2 - y1) ∧ y1 + w * (y2 - y1) ≤ max y1 y2 := by
  rcases le_total y1 y2 with h | h
  · rw [min_eq_left h, max_eq_right h]
    constructor <;> nlinarith
  · rw [min_eq_right h, max_eq_left h]
    constructor <;> nlinarith

theorem scenario1_reachable (SearchIndex : ℚ → List ℚ → SearchMethod → Nat → Nat)
    (epsilon_ : ℚ) : Reachable SearchIndex epsilon_ scenario1 :=
  Reachable.setTable _ _ _ Reachable.construct

/-! ## C11 – C12 : linear interpolation and extrapolation -/

/-- C11 as stated fails: the two-sample table `[0, 1/2000000], [0, 1]` is valid, and with the
tolerance `1/1000000` linear interpolation in bracket 1 at the sample point `x[0] = 0` gives
`1/2`, not `y[0] = 0`. -/
theorem InterpolationLinear_narrow_segment :
    ValidPair narrowTable.x_table_ narrowTable.y_table_ ∧
    narrowTable.x_table_[0]? = some 0 ∧ narrowTable.y_table_[0]? = some 0 ∧
    InterpolationLinear (1 / 1000000) narrowTable 1 0 = some (1 / 2) ∧
    ¬ InterpolationLinear (1 / 1000000) narrowTable 1 0 = some 0 := by
  have hv : ValidPair [0, 1 / 2000000] [0, 1] := by
    rw [← checkTableState_valid_iff]
    norm_num [CheckTableState, isStrictlyIncreasing, max_table_size_]
  have he : narrowTable =
      { construct with
          x_table_ := [0, 1 / 2000000]
          y_table_ := [0, 1]
          table_valid_ := true
          table_empty_ := false
          table_size_ := 2 } := by
    unfold narrowTable
    rw [setTable_of_valid _ _ _ hv]
    rfl
  have hr : InterpolationLinear (1 / 1000000) narrowTable 1 0 = some (1 / 2) := by
    rw [interpolationLinear_eq (1 / 1000000) narrowTable 1 0 (by decide) 0 (1 / 2000000) 0 1
      (by rw [he]; rfl) (by rw [he]; rfl) (by rw [he]; rfl) (by rw [he]; rfl)]
    norm_num [abs_of_nonneg]
  refine ⟨by rw [he]; exact hv, by rw [he]; rfl, by rw [he]; rfl, hr, ?_⟩
  rw [hr]
  norm_num

/-- C11 (amended): for a valid table and an interior bracket `0 < i < n` whose segment is at
least the tolerance wide (`ε ≤ x[i] - x[i-1]`, so the degenerate-segment guard does not fire),
linear interpolation at a sample point returns that sample's `y`:
`InterpolationLinear(i, x[i-1]) = y[i-1]` and `InterpolationLinear(i, x[i]) = y[i]`. -/
theorem InterpolationLinear_at_samples (epsilon_ : ℚ) (s : LookupTable1D) (i : Nat)
    (hp : ValidPair s.x_table_ s.y_table_) (h0 : 0 < i) (hn : i < s.x_table_.length) :
    ∃ x1 x2 y1 y2 : ℚ, s.x_table_[i - 1]? = some x1 ∧ s.x_table_[i]? = some x2 ∧
      s.y_table_[i - 1]? = some y1 ∧ s.y_table_[i]? = some y2 ∧
      (epsilon_ ≤ x2 - x1 →
        InterpolationLinear epsilon_ s i x1 = some y1 ∧
        InterpolationLinear epsilon_ s i x2 = some y2) := by
  obtain ⟨x1, x2, y1, y2, hx1, hx2, hy1, hy2, hlt⟩ := validPair_segment _ _ hp i h0 hn
  refine ⟨x1, x2, y1, y2, hx1, hx2, hy1, hy2, ?_⟩
  intro hw
  have hpos : 0 < x2 - x1 := by linarith
  have hg : ¬ |x2 - x1| < epsilon_ := by
    rw [abs_of_pos hpos]
    exact not_lt.2 hw
  have hne : x2 - x1 ≠ 0 := ne_of_gt hpos
  constructor
  · rw [interpolationLinear_eq epsilon_ s i x1 h0 x1 x2 y1 y2 hx1 hx2 hy1 hy2, if_neg hg]
    simp
  · rw [interpolationLinear_eq epsilon_ s i x2 h0 x1 x2 y1 y2 hx1 hx2 hy1 hy2, if_neg hg,
      div_self hne]
    simp

/-- On the table of scenario 1 with tolerance `1/1000000`, bracket 2 at the sample points
`x[1] = 1` and `x[2] = 2` gives `y[1] = 10` and `y[2] = 20`. -/
theorem InterpolationLinear_at_samples_witness :
    InterpolationLinear (1 / 1000000) scenario1 2 1 = some 10 ∧
    InterpolationLinear (1 / 1000000) scenario1 2 2 = some 20 := by
  obtain ⟨x1, x2, y1, y2, hx1, hx2, hy1, hy2, h⟩ :=
    InterpolationLinear_at_samples (1 / 1000000) scenario1 2
      (by rw [scenario1_eq]; exact validPair_scenario1) (by decide)
      (by rw [scenario1_eq]; decide)
  rw [scenario1_eq] at hx1 hx2 hy1 hy2
  simp at hx1 hx2 hy1 hy2
  subst hx1 hx2 hy1 hy2
  exact h (by norm_num)

/-- C12: for a valid table of `n ≥ 2` samples with size field `n`, linear extrapolation is the
linear-interpolation formula of the boundary segment, degenerate-segment guard included:
`ExtrapolationLinear(0, x) = InterpolationLinear(1, x)` and
`ExtrapolationLinear(n, x) = InterpolationLinear(n-1, x)`, and both are defined. -/
theorem ExtrapolationLinear_eq_InterpolationLinear (epsilon_ : ℚ) (s : LookupTable1D)
    (x_value : ℚ) (hp : ValidPair s.x_table_ s.y_table_)
    (hn : s.table_size_ = s.x_table_.length) :
    ExtrapolationLinear epsilon_ s 0 x_value = InterpolationLinear epsilon_ s 1 x_value ∧
    ExtrapolationLinear epsilon_ s s.x_table_.length x_value =
      InterpolationLinear epsilon_ s (s.x_table_.length - 1) x_value ∧
    (ExtrapolationLinear epsilon_ s 0 x_value).isSome = true ∧
    (ExtrapolationLinear epsilon_ s s.x_table_.length x_value).isSome = true := by
  have h2 : 2 ≤ s.x_table_.length := hp.2.2.1
  have hfirst : ExtrapolationLinear epsilon_ s 0 x_value =
      InterpolationLinear epsilon_ s 1 x_value := by
    simp [ExtrapolationLinear, InterpolationLinear]
  have hlast : ExtrapolationLinear epsilon_ s s.x_table_.length x_value =
      InterpolationLinear epsilon_ s (s.x_table_.length - 1) x_value := by
    have hne : ¬ s.x_table_.length = 0 := by omega
    have c1 : ((s.x_table_.length - 1 : Nat) : Int) = (s.x_table_.length : Int) - 1 := by
      omega
    have c2 : (s.x_table_.length : Int) - 1 - 1 = (s.x_table_.length : Int) - 2 := by
      omega
    simp only [ExtrapolationLinear, InterpolationLinear, if_neg hne, hn, if_true, c1, c2]
  refine ⟨hfirst, hlast, ?_, ?_⟩
  · obtain ⟨x1, x2, y1, y2, hx1, hx2, hy1, hy2, _⟩ :=
      validPair_segment _ _ hp 1 (by decide) (by omega)
    rw [hfirst, interpolationLinear_eq epsilon_ s 1 x_value (by decide) x1 x2 y1 y2
      hx1 hx2 hy1 hy2]
    rfl
  · obtain ⟨x1, x2, y1, y2, hx1, hx2, hy1, hy2, _⟩ :=
      validPair_segment _ _ hp (s.x_table_.length - 1) (by omega) (by omega)
    rw [hlast, interpolationLinear_eq epsilon_ s (s.x_table_.length - 1) x_value (by omega)
      x1 x2 y1 y2 hx1 hx2 hy1 hy2]
    rfl

/-- Scenario 3 of the spec: on the table `[0,1,2,3], [0,10,20,30]`, linear extrapolation with
bracket 0 at the query -1 gives -10. -/
theorem ExtrapolationLinear_eq_InterpolationLinear_witness :
    ExtrapolationLinear (1 / 1000000) scenario1 0 (-1) = some (-10) := by
  have h := (ExtrapolationLinear_eq_InterpolationLinear (1 / 1000000) scenario1 (-1)
    (by rw [scenario1_eq]; exact validPair_scenario1) (by rw [scenario1_eq]; rfl)).1
  rw [h, interpolationLinear_eq (1 / 1000000) scenario1 1 (-1) (by decide) 0 1 0 10
    (by rw [scenario1_eq]; rfl) (by rw [scenario1_eq]; rfl) (by rw [scenario1_eq]; rfl)
    (by rw [scenario1_eq]; rfl)]
  norm_num [abs_of_nonneg]

/-! ## C16 – C17, C20 : `PreLookup`, the table invariant, bounds of linear interpolation -/

/-- C16: with the search an arbitrary function returning `s`: when `0 ≤ s ≤ len x`, `PreLookup`
returns `s` and stores it as bracket index; otherwise it returns the stored bracket index and
leaves it unchanged. -/
theorem PreLookup_result (SearchIndex : ℚ → List ℚ → SearchMethod → Nat → Nat)
    (s : LookupTable1D) (x_value : ℚ) :
    ((0 ≤ SearchIndex x_value s.x_table_ s.search_method_ s.prelook_index_ ∧
        SearchIndex x_value s.x_table_ s.search_method_ s.prelook_index_ ≤ s.x_table_.length) →
      (PreLookup SearchIndex s x_value).2 =
        SearchIndex x_value s.x_table_ s.search_method_ s.prelook_index_ ∧
      (PreLookup SearchIndex s x_value).1.prelook_index_ =
        SearchIndex x_value s.x_table_ s.search_method_ s.prelook_index_) ∧
    (¬ (0 ≤ SearchIndex x_value s.x_table_ s.search_method_ s.prelook_index_ ∧
        SearchIndex x_value s.x_table_ s.search_method_ s.prelook_index_ ≤ s.x_table_.length) →
      (PreLookup SearchIndex s x_value).2 = s.prelook_index_ ∧
      (PreLookup SearchIndex s x_value).1.prelook_index_ = s.prelook_index_) := by
  constructor
  · intro h
    simp only [PreLookup, if_pos h]
    exact ⟨trivial, trivial⟩
  · intro h
    simp only [PreLookup, if_neg h]
    exact ⟨trivial, trivial⟩

/-- On the table of scenario 1 (stored bracket index 0) a search answering 2 is stored, and
a search answering 9 falls back to the stored index 0. -/
theorem PreLookup_result_witness :
    (PreLookup (fun _ _ _ _ => 2) scenario1 (3 / 2)).2 = 2 ∧
    (PreLookup (fun _ _ _ _ => 2) scenario1 (3 / 2)).1.prelook_index_ = 2 ∧
    (PreLookup (fun _ _ _ _ => 9) scenario1 (3 / 2)).2 = scenario1.prelook_index_ ∧
    (PreLookup (fun _ _ _ _ => 9) scenario1 (3 / 2)).1.prelook_index_ =
      scenario1.prelook_index_ :=
  have h2 := (PreLookup_result (fun _ _ _ _ => 2) scenario1 (3 / 2)).1
    (by rw [scenario1_eq]; decide)
  have h9 := (PreLookup_result (fun _ _ _ _ => 9) scenario1 (3 / 2)).2
    (by rw [scenario1_eq]; decide)
  ⟨h2.1, h2.2, h9.1, h9.2⟩

/-- C17: in every reachable state the stored pair is empty (both lengths 0) or valid, the empty
flag is true exactly when the stored `x` has length 0, and the size field is the length of the
stored `x`. -/
theorem Reachable_table_consistent (SearchIndex : ℚ → List ℚ → SearchMethod → Nat → Nat)
    (epsilon_ : ℚ) (s : LookupTable1D) (hr : Reachable SearchIndex epsilon_ s) :
    ((s.x_table_.length = 0 ∧ s.y_table_.length = 0) ∨ ValidPair s.x_table_ s.y_table_) ∧
    (s.table_empty_ = true ↔ s.x_table_.length = 0) ∧
    s.table_size_ = s.x_table_.length := by
  rcases reachable_invariant SearchIndex epsilon_ s hr with ⟨hx, hy, he, hn⟩ | ⟨hp, he, hn, _⟩
  · refine ⟨Or.inl ⟨by rw [hx]; rfl, by rw [hy]; rfl⟩, ?_, by rw [hn, hx]; rfl⟩
    rw [he, hx]
    simp
  · refine ⟨Or.inr hp, ?_, hn⟩
    have h2 : 2 ≤ s.x_table_.length := hp.2.2.1
    rw [he]
    constructor
    · intro h
      exact absurd h (by decide)
    · intro h
      omega

/-- The state after `SetTable([0,1,2,3], [0,10,20,30])` and `ClearTable()` is reachable and
consistent: empty pair, empty flag set, size 0. -/
theorem Reachable_table_consistent_witness :
    ((ClearTable scenario1).1.x_table_.length = 0 ∧
        (ClearTable scenario1).1.y_table_.length = 0 ∨
      ValidPair (ClearTable scenario1).1.x_table_ (ClearTable scenario1).1.y_table_) ∧
    ((ClearTable scenario1).1.table_empty_ = true ↔
      (ClearTable scenario1).1.x_table_.length = 0) ∧
    (ClearTable scenario1).1.table_size_ = (ClearTable scenario1).1.x_table_.length :=
  Reachable_table_consistent (fun _ _ _ _ => 0) (1 / 1000000) (ClearTable scenario1).1
    (Reachable.clearTable _ (scenario1_reachable _ _))

/-- C20: for a valid table, an interior bracket `0 < i < n` and a query `q` with
`x[i-1] ≤ q ≤ x[i]`, the result of `InterpolationLinear(i, q)` lies between
`min(y[i-1], y[i])` and `max(y[i-1], y[i])`, for every tolerance (the weight is in `[0, 1]`,
also when the degenerate-segment guard fires). -/
theorem InterpolationLinear_between (epsilon_ : ℚ) (s : LookupTable1D) (i : Nat) (q : ℚ)
    (hp : ValidPair s.x_table_ s.y_table_) (h0 : 0 < i) (hn : i < s.x_table_.length) :
    ∃ x1 x2 y1 y2 : ℚ, s.x_table_[i - 1]? = some x1 ∧ s.x_table_[i]? = some x2 ∧
      s.y_table_[i - 1]? = some y1 ∧ s.y_table_[i]? = some y2 ∧
      (x1 ≤ q → q ≤ x2 →
        ∃ r : ℚ, InterpolationLinear epsilon_ s i q = some r ∧
          min y1 y2 ≤ r ∧ r ≤ max y1 y2) := by
  obtain ⟨x1, x2, y1, y2, hx1, hx2, hy1, hy2, hlt⟩ := validPair_segment _ _ hp i h0 hn
  refine ⟨x1, x2, y1, y2, hx1, hx2, hy1, hy2, ?_⟩
  intro hq1 hq2
  have hpos : 0 < x2 - x1 := by linarith
  have hw : 0 ≤ (if |x2 - x1| < epsilon_ then (1 / 2 : ℚ) else (q - x1) / (x2 - x1)) ∧
      (if |x2 - x1| < epsilon_ then (1 / 2 : ℚ) else (q - x1) / (x2 - x1)) ≤ 1 := by
    split_ifs
    · constructor <;> norm_num
    · constructor
      · exact div_nonneg (by linarith) (le_of_lt hpos)
      · rw [div_le_one hpos]
        linarith
  refine ⟨_, interpolationLinear_eq epsilon_ s i q h0 x1 x2 y1 y2 hx1 hx2 hy1 hy2, ?_⟩
  exact blend_between y1 y2 _ hw.1 hw.2

/-- On the table of scenario 1, bracket 2 at the query `3/2` gives a value between
`y[1] = 10` and `y[2] = 20`. -/
theorem InterpolationLinear_between_witness :
    ∃ r : ℚ, InterpolationLinear (1 / 1000000) scenario1 2 (3 / 2) = some r ∧
      10 ≤ r ∧ r ≤ 20 := by
  obtain ⟨x1, x2, y1, y2, hx1, hx2, hy1, hy2, h⟩ :=
    InterpolationLinear_between (1 / 1000000) scenario1 2 (3 / 2)
      (by rw [scenario1_eq]; exact validPair_scenario1) (by decide)
      (by rw [scenario1_eq]; decide)
  rw [scenario1_eq] at hx1 hx2 hy1 hy2
  simp at hx1 hx2 hy1 hy2
  subst hx1 hx2 hy1 hy2
  obtain ⟨r, hr, hlo, hhi⟩ := h (by norm_num) (by norm_num)
  rw [min_eq_left (by norm_num)] at hlo
  rw [max_eq_right (by norm_num)] at hhi
  exact ⟨r, hr, hlo, hhi⟩

/-! ## Lemmas on extrapolation and on the defined reads of `LookupTable` -/

theorem validPair_boundary (x y : List ℚ) (hp : ValidPair x y) :
    ∃ y0 yn : ℚ, y[0]? = some y0 ∧ y[x.length - 1]? = some yn := by
  obtain ⟨_, _, h2, _, hxy, _⟩ := hp
  have h0 : 0 < y.length := by omega
  have h1 : x.length - 1 < y.length := by omega
  exact ⟨y[0], y[x.length - 1], List.getElem?_eq_getElem h0, List.getElem?_eq_getElem h1⟩

theorem extrapolationClip_values (s : LookupTable1D) (hp : ValidPair s.x_table_ s.y_table_)
    (hn : s.table_size_ = s.x_table_.length) (y0 yn : ℚ) (h0 : s.y_table_[0]? = some y0)
    (h1 : s.y_table_[s.x_table_.length - 1]? = some yn) :
    ExtrapolationClip s 0 = some y0 ∧ ExtrapolationClip s s.x_table_.length = some yn := by
  obtain ⟨_, _, h2, _, hxy, _⟩ := hp
  have hne : ¬ s.x_table_.length = 0 := by omega
  constructor
  · simp only [ExtrapolationClip, if_true]
    have := coeff_natCast s.y_table_ 0
    simp only [Nat.cast_zero] at this
    rw [this, h0]
  · simp only [ExtrapolationClip, if_neg hne, hn, if_true]
    rw [coeff_length_sub_one _ (by omega), ← hxy, h1]

theorem extrapolationSpecify_values (s : LookupTable1D) (h : s.table_size_ ≠ 0) (lo hi : ℚ) :
    ExtrapolationSpecify s 0 lo hi = some lo ∧
    ExtrapolationSpecify s s.table_size_ lo hi = some hi := by
  simp [ExtrapolationSpecify, h]

theorem setExtrapMethod_of_valid (s : LookupTable1D) (method : ExtrapMethod)
    (hp : ValidPair s.x_table_ s.y_table_) (hv : s.table_valid_ = true) (y0 yn : ℚ)
    (h0 : s.y_table_[0]? = some y0) (h1 : s.y_table_[s.x_table_.length - 1]? = some yn) :
    SetExtrapMethod s method =
      some { s with extrap_method_ := method
                    lower_extrap_value_specify_ := y0
                    upper_extrap_value_specify_ := yn } := by
  obtain ⟨_, _, h2, _, hxy, _⟩ := hp
  have c0 : coeff s.y_table_ 0 = some y0 := by
    have := coeff_natCast s.y_table_ 0
    simp only [Nat.cast_zero] at this
    rw [this, h0]
  have c1 : coeff s.y_table_ ((s.y_table_.length : Int) - 1) = some yn := by
    rw [coeff_length_sub_one _ (by omega), ← hxy, h1]
  simp [SetExtrapMethod, hv, c0, c1]

theorem interpolation_isSome (epsilon_ : ℚ) (s : LookupTable1D) (i : Nat) (q : ℚ)
    (hp : ValidPair s.x_table_ s.y_table_) (h0 : 0 < i) (hn : i < s.x_table_.length) :
    (Interpolation epsilon_ s i q).isSome = true := by
  obtain ⟨x1, x2, y1, y2, hx1, hx2, hy1, hy2, _⟩ := validPair_segment _ _ hp i h0 hn
  unfold Interpolation
  cases s.interp_method_ with
  | linear =>
    simp only []
    rw [interpolationLinear_eq epsilon_ s i q h0 x1 x2 y1 y2 hx1 hx2 hy1 hy2]
    rfl
  | nearest =>
    simp only [InterpolationNearest]
    rw [coeff_pred _ _ h0, coeff_natCast, coeff_pred _ _ h0, coeff_natCast, hx1, hx2, hy1, hy2]
    simp only [Option.bind_eq_bind, Option.some_bind]
    split_ifs <;> rfl
  | next =>
    simp only [InterpolationNext]
    rw [coeff_natCast, hy2]
    rfl
  | previous =>
    simp only [InterpolationPrevious]
    rw [coeff_pred _ _ h0, hy1]
    rfl

theorem extrapolation_isSome (epsilon_ : ℚ) (s : LookupTable1D) (i : Nat) (q : ℚ)
    (hp : ValidPair s.x_table_ s.y_table_) (hn : s.table_size_ = s.x_table_.length) :
    (Extrapolation epsilon_ s i q).isSome = true := by
  have h2 : 2 ≤ s.x_table_.length := hp.2.2.1
  obtain ⟨y0, yn, hy0, hyn⟩ := validPair_boundary _ _ hp
  have hclip := extrapolationClip_values s hp hn y0 yn hy0 hyn
  unfold Extrapolation
  cases s.extrap_method_ with
  | clip =>
    simp only []
    by_cases hi0 : i = 0
    · rw [hi0, hclip.1]
      rfl
    · by_cases hin : i = s.x_table_.length
      · rw [hin, hclip.2]
        rfl
      · have hin' : ¬ i = s.table_size_ := by rw [hn]; exact hin
        simp [ExtrapolationClip, hi0, hin']
  | linear =>
    simp only []
    by_cases hi0 : i = 0
    · obtain ⟨x1, x2, y1, y2, hx1, hx2, hy1, hy2, _⟩ :=
        validPair_segment _ _ hp 1 (by decide) (by omega)
      have : ExtrapolationLinear epsilon_ s 0 q = InterpolationLinear epsilon_ s 1 q := by
        simp [ExtrapolationLinear, InterpolationLinear]
      rw [hi0, this, interpolationLinear_eq epsilon_ s 1 q (by decide) x1 x2 y1 y2
        hx1 hx2 hy1 hy2]
      rfl
    · by_cases hin : i = s.x_table_.length
      · obtain ⟨x1, x2, y1, y2, hx1, hx2, hy1, hy2, _⟩ :=
          validPair_segment _ _ hp (s.x_table_.length - 1) (by omega) (by omega)
        have hne : ¬ s.x_table_.length = 0 := by omega
        have c1 : ((s.x_table_.length - 1 : Nat) : Int) = (s.x_table_.length : Int) - 1 := by
          omega
        have c2 : (s.x_table_.length : Int) - 1 - 1 = (s.x_table_.length : Int) - 2 := by
          omega
        have : ExtrapolationLinear epsilon_ s s.x_table_.length q =
            InterpolationLinear epsilon_ s (s.x_table_.length - 1) q := by
          simp only [ExtrapolationLinear, InterpolationLinear, if_neg hne, hn, if_true, c1, c2]
        rw [hin, this, interpolationLinear_eq epsilon_ s (s.x_table_.length - 1) q (by omega)
          x1 x2 y1 y2 hx1 hx2 hy1 hy2]
        rfl
      · have hin' : ¬ i = s.table_size_ := by rw [hn]; exact hin
        simp [ExtrapolationLinear, hi0, hin']
  | specify =>
    simp only [ExtrapolationSpecify]
    split_ifs <;> rfl

/-! ## C13, C18 : defaults of `SetExtrapMethod`, defined reads of `LookupTable` -/

/-- C13: in a state with a valid table of `n` samples (valid flag set, size field `n`),
`SetExtrapMethod(specify)` without bounds sets the lower constant to `y[0]` and the upper
constant to `y[n-1]`; afterwards `Extrapolation` with bracket 0 or `n` returns, for every
query, the value it returns with clip selected. -/
theorem SetExtrapMethod_specify_defaults (epsilon_ : ℚ) (s : LookupTable1D)
    (hp : ValidPair s.x_table_ s.y_table_) (hv : s.table_valid_ = true)
    (hn : s.table_size_ = s.x_table_.length) :
    ∃ (s1 : LookupTable1D) (y0 yn : ℚ),
      SetExtrapMethod s ExtrapMethod.specify = some s1 ∧
      s.y_table_[0]? = some y0 ∧ s.y_table_[s.x_table_.length - 1]? = some yn ∧
      s1.lower_extrap_value_specify_ = y0 ∧ s1.upper_extrap_value_specify_ = yn ∧
      ∀ x_value : ℚ,
        Extrapolation epsilon_ s1 0 x_value = some y0 ∧
        Extrapolation epsilon_ s1 s.x_table_.length x_value = some yn ∧
        Extrapolation epsilon_ { s1 with extrap_method_ := ExtrapMethod.clip } 0 x_value =
          some y0 ∧
        Extrapolation epsilon_ { s1 with extrap_method_ := ExtrapMethod.clip }
          s.x_table_.length x_value = some yn := by
  obtain ⟨y0, yn, hy0, hyn⟩ := validPair_boundary _ _ hp
  have h2 : 2 ≤ s.x_table_.length := hp.2.2.1
  refine ⟨_, y0, yn, setExtrapMethod_of_valid s ExtrapMethod.specify hp hv y0 yn hy0 hyn,
    hy0, hyn, rfl, rfl, ?_⟩
  intro x_value
  have hsp := extrapolationSpecify_values
    { s with extrap_method_ := ExtrapMethod.specify
             lower_extrap_value_specify_ := y0
             upper_extrap_value_specify_ := yn } (by show s.table_size_ ≠ 0; omega) y0 yn
  have hcl := extrapolationClip_values
    { s with extrap_method_ := ExtrapMethod.clip
             lower_extrap_value_specify_ := y0
             upper_extrap_value_specify_ := yn } hp hn y0 yn hy0 hyn
  refine ⟨hsp.1, ?_, hcl.1, hcl.2⟩
  have hne : ¬ s.x_table_.length = 0 := by omega
  simp [Extrapolation, ExtrapolationSpecify, hn, hne]

/-- On the table of scenario 1, `SetExtrapMethod(specify)` sets the constants to 0 and 30. -/
theorem SetExtrapMethod_specify_defaults_witness :
    ∃ s1 : LookupTable1D, SetExtrapMethod scenario1 ExtrapMethod.specify = some s1 ∧
      s1.lower_extrap_value_specify_ = 0 ∧ s1.upper_extrap_value_specify_ = 30 ∧
      Extrapolation (1 / 1000000) s1 0 (-1) = some 0 ∧
      Extrapolation (1 / 1000000) s1 4 5 = some 30 := by
  obtain ⟨s1, y0, yn, hs, h0, h1, hlo, hhi, hq⟩ :=
    SetExtrapMethod_specify_defaults (1 / 1000000) scenario1
      (by rw [scenario1_eq]; exact validPair_scenario1) (by rw [scenario1_eq])
      (by rw [scenario1_eq]; rfl)
  have hlen : scenario1.x_table_.length = 4 := by rw [scenario1_eq]; rfl
  rw [scenario1_eq] at h0 h1
  simp at h0 h1
  subst h0 h1
  have h5 := (hq 5).2.1
  rw [hlen] at h5
  exact ⟨s1, hs, hlo, hhi, (hq (-1)).1, h5⟩

/-- C18: in a state with the valid flag set, a valid stored pair of `n` samples and size field
`n`, for a query whose search result lies in `[0, n]`, `LookupTable` is defined under every
interpolation and extrapolation method: every coefficient it reads is at an index within
`[0, n-1]`, the out-of-bounds case of `coeff` is not reached. -/
theorem LookupTable_reads_in_bounds (SearchIndex : ℚ → List ℚ → SearchMethod → Nat → Nat)
    (epsilon_ : ℚ) (s : LookupTable1D) (x_value : ℚ) (hv : s.table_valid_ = true)
    (hp : ValidPair s.x_table_ s.y_table_) (hn : s.table_size_ = s.x_table_.length)
    (hs : SearchIndex x_value s.x_table_ s.search_method_ s.prelook_index_ ≤
      s.x_table_.length) :
    (LookupTable SearchIndex epsilon_ s x_value).isSome = true := by
  obtain ⟨hx, hy, _, _, hsz⟩ := preLookup_sameTable SearchIndex s x_value
  have hp1 : ValidPair (PreLookup SearchIndex s x_value).1.x_table_
      (PreLookup SearchIndex s x_value).1.y_table_ := by
    rw [hx, hy]
    exact hp
  have hn1 : (PreLookup SearchIndex s x_value).1.table_size_ =
      (PreLookup SearchIndex s x_value).1.x_table_.length := by
    rw [hsz, hx]
    exact hn
  have hidx : (PreLookup SearchIndex s x_value).2 ≤ s.x_table_.length := by
    have : (PreLookup SearchIndex s x_value).2 =
        SearchIndex x_value s.x_table_ s.search_method_ s.prelook_index_ := by
      simp only [PreLookup, if_pos (And.intro (Nat.zero_le _) hs)]
    rw [this]
    exact hs
  unfold LookupTable
  simp only [hv, if_true]
  split_ifs with hb
  · have hsome := extrapolation_isSome epsilon_ _ (PreLookup SearchIndex s x_value).2 x_value
      hp1 hn1
    cases he : Extrapolation epsilon_ (PreLookup SearchIndex s x_value).1
        (PreLookup SearchIndex s x_value).2 x_value with
    | none =>
      rw [he] at hsome
      exact absurd hsome (by decide)
    | some v => rfl
  · have hb0 : 0 < (PreLookup SearchIndex s x_value).2 := by
      rcases Nat.eq_zero_or_pos (PreLookup SearchIndex s x_value).2 with h | h
      · exact absurd (Or.inl h) hb
      · exact h
    have hbn : (PreLookup SearchIndex s x_value).2 <
        (PreLookup SearchIndex s x_value).1.x_table_.length := by
      have hne : (PreLookup SearchIndex s x_value).2 ≠
          (PreLookup SearchIndex s x_value).1.table_size_ := fun h => hb (Or.inr h)
      rw [hn1, hx] at hne
      rw [hx]
      omega
    have hsome := interpolation_isSome epsilon_ _ (PreLookup SearchIndex s x_value).2 x_value
      hp1 hb0 hbn
    cases he : Interpolation epsilon_ (PreLookup SearchIndex s x_value).1
        (PreLookup SearchIndex s x_value).2 x_value with
    | none =>
      rw [he] at hsome
      exact absurd hsome (by decide)
    | some v => rfl

/-- On the table of scenario 1, `Evaluate(1.5)` with a search answering the bracket 2 is
defined. -/
theorem LookupTable_reads_in_bounds_witness :
    (LookupTable (fun _ _ _ _ => 2) (1 / 1000000) scenario1 (3 / 2)).isSome = true :=
  LookupTable_reads_in_bounds (fun _ _ _ _ => 2) (1 / 1000000) scenario1 (3 / 2)
    (by rw [scenario1_eq]) (by rw [scenario1_eq]; exact validPair_scenario1)
    (by rw [scenario1_eq]; rfl) (by rw [scenario1_eq]; decide)

/-! ## C14, C19 : what later calls keep, and the fallback of `PreLookup` -/

theorem validPair_01 (y0 y1 : ℚ) : ValidPair [0, 1] [y0, y1] := by
  rw [← checkTableState_valid_iff]
  norm_num [CheckTableState, isStrictlyIncreasing, max_table_size_]

theorem sameExtrap_trans (s t u : LookupTable1D) (h1 : SameExtrap s t) (h2 : SameExtrap t u) :
    SameExtrap s u :=
  ⟨h2.1.trans h1.1, h2.2.1.trans h1.2.1, h2.2.2.trans h1.2.2⟩

theorem setTable_sameExtrap (s : LookupTable1D) (x y : List ℚ) :
    SameExtrap s (SetTable s x y).1 := by
  by_cases h : ValidPair x y
  · rw [setTable_of_valid s x y h]
    exact ⟨rfl, rfl, rfl⟩
  · rw [setTable_of_not_valid s x y h]
    exact ⟨rfl, rfl, rfl⟩

theorem refreshTableState_sameExtrap (s : LookupTable1D) :
    SameExtrap s (RefreshTableState s) := by
  unfold RefreshTableState
  simp only []
  split_ifs <;> exact ⟨rfl, rfl, rfl⟩

theorem preLookup_sameExtrap (SearchIndex : ℚ → List ℚ → SearchMethod → Nat → Nat)
    (s : LookupTable1D) (x_value : ℚ) : SameExtrap s (PreLookup SearchIndex s x_value).1 := by
  unfold PreLookup
  simp only []
  split_ifs <;> exact ⟨rfl, rfl, rfl⟩

theorem lookupTable_sameExtrap (SearchIndex : ℚ → List ℚ → SearchMethod → Nat → Nat)
    (epsilon_ : ℚ) (s s1 : LookupTable1D) (x_value r : ℚ)
    (h : LookupTable SearchIndex epsilon_ s x_value = some (s1, r)) : SameExtrap s s1 := by
  by_cases hv : s.table_valid_ = true
  · have hp := preLookup_sameExtrap SearchIndex s x_value
    unfold LookupTable at h
    simp only [hv, if_true] at h
    split_ifs at h
    · cases he : Extrapolation epsilon_ (PreLookup SearchIndex s x_value).1
          (PreLookup SearchIndex s x_value).2 x_value with
      | none => simp [he] at h
      | some v =>
        simp [he] at h
        rw [← h.1]
        exact hp
    · cases he : Interpolation epsilon_ (PreLookup SearchIndex s x_value).1
          (PreLookup SearchIndex s x_value).2 x_value with
      | none => simp [he] at h
      | some v =>
        simp [he] at h
        rw [← h.1]
        exact hp
  · have hv' : s.table_valid_ = false := by simpa using hv
    rw [lookupTable_of_not_valid _ _ s x_value hv'] at h
    simp at h
    rw [← h.1]
    exact refreshTableState_sameExtrap s

theorem laterState_sameExtrap (SearchIndex : ℚ → List ℚ → SearchMethod → Nat → Nat)
    (epsilon_ : ℚ) (s t : LookupTable1D) (h : LaterState SearchIndex epsilon_ s t) :
    SameExtrap s t := by
  induction h with
  | same => exact ⟨rfl, rfl, rfl⟩
  | setTable t x y _ ih => exact sameExtrap_trans _ _ _ ih (setTable_sameExtrap t x y)
  | clearTable t _ ih => exact sameExtrap_trans _ _ _ ih ⟨rfl, rfl, rfl⟩
  | lookupTable t t1 q r _ hl ih =>
    exact sameExtrap_trans _ _ _ ih (lookupTable_sameExtrap _ _ t t1 q r hl)

theorem scenario1_specify :
    SetExtrapMethod scenario1 ExtrapMethod.specify =
      some { scenario1 with extrap_method_ := ExtrapMethod.specify
                            lower_extrap_value_specify_ := 0
                            upper_extrap_value_specify_ := 30 } :=
  setExtrapMethod_of_valid scenario1 ExtrapMethod.specify
    (by rw [scenario1_eq]; exact validPair_scenario1) (by rw [scenario1_eq]) 0 30
    (by rw [scenario1_eq]; rfl) (by rw [scenario1_eq]; rfl)

/-- C14 as stated fails: after `SetExtrapMethod(specify)` on the table of scenario 1 and then
`SetTable([0,1],[5,7])`, the table is valid with `y[0] = 5`, but `Extrapolation` with bracket 0
still returns the constant 0 taken from the earlier table. -/
theorem Specify_not_refreshed_by_SetTable :
    ∃ s1 : LookupTable1D, SetExtrapMethod scenario1 ExtrapMethod.specify = some s1 ∧
      LaterState (fun _ _ _ _ => 0) (1 / 1000000) s1 (SetTable s1 [0, 1] [5, 7]).1 ∧
      ValidPair (SetTable s1 [0, 1] [5, 7]).1.x_table_ (SetTable s1 [0, 1] [5, 7]).1.y_table_ ∧
      (SetTable s1 [0, 1] [5, 7]).1.table_valid_ = true ∧
      (SetTable s1 [0, 1] [5, 7]).1.y_table_[0]? = some 5 ∧
      Extrapolation (1 / 1000000) (SetTable s1 [0, 1] [5, 7]).1 0 (-1) = some 0 ∧
      ¬ Extrapolation (1 / 1000000) (SetTable s1 [0, 1] [5, 7]).1 0 (-1) = some 5 := by
  refine ⟨_, scenario1_specify, LaterState.setTable _ _ _ LaterState.same, ?_⟩
  rw [setTable_of_valid _ _ _ (validPair_01 5 7)]
  refine ⟨validPair_01 5 7, rfl, rfl, ?_, ?_⟩
  · simp [Extrapolation, ExtrapolationSpecify]
  · simp [Extrapolation, ExtrapolationSpecify]

/-- C14 (amended): once specify has been selected through the overload without bounds on a
valid table, then after every sequence of `SetTable`, `ClearTable` and `LookupTable` calls, in
a state with a valid table of `n` samples, `Extrapolation` with bracket 0 returns the `y[0]`
and with bracket `n` the last `y` of the table that was stored when specify was selected; this
is the clip result when the stored `y` sequence is still that one. -/
theorem Specify_returns_selection_constants
    (SearchIndex : ℚ → List ℚ → SearchMethod → Nat → Nat) (epsilon_ : ℚ)
    (s0 s1 s2 : LookupTable1D) (hp0 : ValidPair s0.x_table_ s0.y_table_)
    (hv0 : s0.table_valid_ = true)
    (hsel : SetExtrapMethod s0 ExtrapMethod.specify = some s1)
    (hl : LaterState SearchIndex epsilon_ s1 s2)
    (hp2 : ValidPair s2.x_table_ s2.y_table_) (hn2 : s2.table_size_ = s2.x_table_.length) :
    ∃ y0 yn : ℚ, s0.y_table_[0]? = some y0 ∧ s0.y_table_[s0.x_table_.length - 1]? = some yn ∧
      (∀ x_value : ℚ, Extrapolation epsilon_ s2 0 x_value = some y0 ∧
        Extrapolation epsilon_ s2 s2.x_table_.length x_value = some yn) ∧
      (s2.y_table_ = s0.y_table_ → ∀ x_value : ℚ,
        Extrapolation epsilon_ s2 0 x_value =
          Extrapolation epsilon_ { s2 with extrap_method_ := ExtrapMethod.clip } 0 x_value ∧
        Extrapolation epsilon_ s2 s2.x_table_.length x_value =
          Extrapolation epsilon_ { s2 with extrap_method_ := ExtrapMethod.clip }
            s2.x_table_.length x_value) := by
  obtain ⟨y0, yn, hy0, hyn⟩ := validPair_boundary _ _ hp0
  have hs1 := setExtrapMethod_of_valid s0 ExtrapMethod.specify hp0 hv0 y0 yn hy0 hyn
  rw [hsel] at hs1
  have hs1' := Option.some.inj hs1
  obtain ⟨hm, hlo, hhi⟩ := laterState_sameExtrap SearchIndex epsilon_ s1 s2 hl
  rw [hs1'] at hm hlo hhi
  have hm' : s2.extrap_method_ = ExtrapMethod.specify := hm
  have hlo' : s2.lower_extrap_value_specify_ = y0 := hlo
  have hhi' : s2.upper_extrap_value_specify_ = yn := hhi
  have h2 : 2 ≤ s2.x_table_.length := hp2.2.2.1
  have hne : ¬ s2.x_table_.length = 0 := by omega
  have hspec : ∀ x_value : ℚ, Extrapolation epsilon_ s2 0 x_value = some y0 ∧
      Extrapolation epsilon_ s2 s2.x_table_.length x_value = some yn := by
    intro x_value
    simp [Extrapolation, ExtrapolationSpecify, hm', hlo', hhi', hn2, hne]
  refine ⟨y0, yn, hy0, hyn, hspec, ?_⟩
  intro hy x_value
  have hlen : s2.x_table_.length = s0.x_table_.length := by
    have e2 := hp2.2.2.2.2.1
    have e0 := hp0.2.2.2.2.1
    rw [e2, e0, hy]
  have hcl := extrapolationClip_values { s2 with extrap_method_ := ExtrapMethod.clip }
    hp2 hn2 y0 yn (by show s2.y_table_[0]? = some y0; rw [hy]; exact hy0)
    (by show s2.y_table_[s2.x_table_.length - 1]? = some yn; rw [hy, hlen]; exact hyn)
  have hc0 : Extrapolation epsilon_ { s2 with extrap_method_ := ExtrapMethod.clip } 0
      x_value = some y0 := hcl.1
  have hcn : Extrapolation epsilon_ { s2 with extrap_method_ := ExtrapMethod.clip }
      s2.x_table_.length x_value = some yn := hcl.2
  rw [hc0, hcn]
  exact hspec x_value

/-- After `SetExtrapMethod(specify)` on the table of scenario 1 and `SetTable([0,1],[5,7])`,
brackets 0 and 2 return 0 and 30, the boundary values of the table of scenario 1. -/
theorem Specify_returns_selection_constants_witness :
    ∃ s1 : LookupTable1D, SetExtrapMethod scenario1 ExtrapMethod.specify = some s1 ∧
      Extrapolation (1 / 1000000) (SetTable s1 [0, 1] [5, 7]).1 0 (-1) = some 0 ∧
      Extrapolation (1 / 1000000) (SetTable s1 [0, 1] [5, 7]).1 2 9 = some 30 := by
  refine ⟨_, scenario1_specify, ?_⟩
  obtain ⟨y0, yn, h0, h1, hq, _⟩ :=
    Specify_returns_selection_constants (fun _ _ _ _ => 0) (1 / 1000000) scenario1 _
      (SetTable _ [0, 1] [5, 7]).1
      (by rw [scenario1_eq]; exact validPair_scenario1) (by rw [scenario1_eq])
      scenario1_specify (LaterState.setTable _ _ _ LaterState.same)
      (by rw [setTable_of_valid _ _ _ (validPair_01 5 7)]; exact validPair_01 5 7)
      (by rw [setTable_of_valid _ _ _ (validPair_01 5 7)])
  rw [scenario1_eq] at h0 h1
  simp at h0 h1
  subst h0 h1
  have hlen : (SetTable { scenario1 with extrap_method_ := ExtrapMethod.specify
                                         lower_extrap_value_specify_ := 0
                                         upper_extrap_value_specify_ := 30 }
      [0, 1] [5, 7]).1.x_table_.length = 2 := by
    rw [setTable_of_valid _ _ _ (validPair_01 5 7)]
    rfl
  have h9 := (hq 9).2
  rw [hlen] at h9
  exact ⟨(hq (-1)).1, h9⟩

theorem scenario1_lookup_stale :
    LookupTable staleSearch (1 / 1000000) scenario1 5 =
      some ({ scenario1 with prelook_index_ := 4, lookup_result_ := 30, x_value_ := 5 }, 30) := by
  rw [scenario1_eq]
  simp [LookupTable, PreLookup, staleSearch, Extrapolation, ExtrapolationClip, construct, coeff]

/-- C19 as stated fails: with a search that answers 4 on the four-sample table of scenario 1
and an out-of-range index afterwards, `Evaluate(5)` stores the bracket index 4; after
`SetTable([0,1],[0,1])` the state is reachable and the table is valid with `n = 2`, and
`PreLookup` falls back to the stored index 4, which is greater than `n`. -/
theorem PreLookup_stale_fallback :
    ∃ (s2 : LookupTable1D) (r : ℚ),
      LookupTable staleSearch (1 / 1000000) scenario1 5 = some (s2, r) ∧
      Reachable staleSearch (1 / 1000000) (SetTable s2 [0, 1] [0, 1]).1 ∧
      ValidPair (SetTable s2 [0, 1] [0, 1]).1.x_table_ (SetTable s2 [0, 1] [0, 1]).1.y_table_ ∧
      (SetTable s2 [0, 1] [0, 1]).1.table_valid_ = true ∧
      (SetTable s2 [0, 1] [0, 1]).1.x_table_.length = 2 ∧
      (PreLookup staleSearch (SetTable s2 [0, 1] [0, 1]).1 0).2 = 4 ∧
      ¬ (PreLookup staleSearch (SetTable s2 [0, 1] [0, 1]).1 0).2 ≤
        (SetTable s2 [0, 1] [0, 1]).1.x_table_.length := by
  refine ⟨_, _, scenario1_lookup_stale,
    Reachable.setTable _ _ _
      (Reachable.lookupTable _ _ _ _ (scenario1_reachable _ _) scenario1_lookup_stale), ?_⟩
  rw [setTable_of_valid _ _ _ (validPair_01 0 1)]
  refine ⟨validPair_01 0 1, rfl, rfl, ?_, ?_⟩
  · simp [PreLookup, staleSearch]
  · simp [PreLookup, staleSearch]

/-- C19 (amended): in every reachable state with a valid table of `n` samples, `PreLookup`
returns an index in `[0, n]` for every query for which the search returns an index in `[0, n]`
or the stored bracket index is at most `n`. -/
theorem PreLookup_in_range (SearchIndex : ℚ → List ℚ → SearchMethod → Nat → Nat)
    (epsilon_ : ℚ) (s : LookupTable1D) (x_value : ℚ)
    (_hr : Reachable SearchIndex epsilon_ s) (_hp : ValidPair s.x_table_ s.y_table_)
    (h : SearchIndex x_value s.x_table_ s.search_method_ s.prelook_index_ ≤ s.x_table_.length ∨
      s.prelook_index_ ≤ s.x_table_.length) :
    0 ≤ (PreLookup SearchIndex s x_value).2 ∧
    (PreLookup SearchIndex s x_value).2 ≤ s.x_table_.length := by
  refine ⟨Nat.zero_le _, ?_⟩
  by_cases hs : SearchIndex x_value s.x_table_ s.search_method_ s.prelook_index_ ≤
      s.x_table_.length
  · simp only [PreLookup, if_pos (And.intro (Nat.zero_le _) hs)]
    exact hs
  · have hs' : ¬ (0 ≤ SearchIndex x_value s.x_table_ s.search_method_ s.prelook_index_ ∧
        SearchIndex x_value s.x_table_ s.search_method_ s.prelook_index_ ≤
          s.x_table_.length) := fun hc => hs hc.2
    simp only [PreLookup, if_neg hs']
    rcases h with h | h
    · exact absurd h hs
    · exact h

/-- On the table of scenario 1 (stored bracket index 0) the out-of-range answer 9 of a search
falls back to the index 0, which is within `[0, 4]`. -/
theorem PreLookup_in_range_witness :
    (PreLookup (fun _ _ _ _ => 9) scenario1 (3 / 2)).2 ≤ scenario1.x_table_.length :=
  (PreLookup_in_range (fun _ _ _ _ => 9) (1 / 1000000) scenario1 (3 / 2)
    (scenario1_reachable _ _) (by rw [scenario1_eq]; exact validPair_scenario1)
    (Or.inr (by rw [scenario1_eq]; decide))).2

/-! ## C15 : the three search strategies -/

theorem strictlyIncreasing_tail (a : ℚ) (t : List ℚ) (h : StrictlyIncreasing (a :: t)) :
    StrictlyIncreasing t := by
  cases t with
  | nil =>
    intro i hi
    simp at hi
  | cons b u => exact ((strictlyIncreasing_cons_cons a b u).1 h).2

theorem strictlyIncreasing_head_lt (t : List ℚ) :
    ∀ a : ℚ, StrictlyIncreasing (a :: t) → ∀ b ∈ t, a < b := by
  induction t with
  | nil =>
    intro a _ b hb
    simp at hb
  | cons c u ih =>
    intro a h b hb
    obtain ⟨hac, hcu⟩ := (strictlyIncreasing_cons_cons a c u).1 h
    rcases List.mem_cons.1 hb with hbc | hbu
    · rw [hbc]
      exact hac
    · exact lt_trans hac (ih c hcu b hbu)

theorem searchIndexSequential_isBracket (value : ℚ) (x : List ℚ) (h : StrictlyIncreasing x) :
    IsBracket value x (SearchIndexSequential value x) := by
  induction x with
  | nil =>
    refine ⟨Nat.le_refl _, ?_⟩
    intro j a hj
    simp at hj
  | cons a t ih =>
    have iht := ih (strictlyIncreasing_tail a t h)
    by_cases hv : value < a
    · simp only [SearchIndexSequential, if_pos hv]
      refine ⟨Nat.zero_le _, ?_⟩
      intro j b hj
      refine iff_of_true ?_ (Nat.zero_le _)
      cases j with
      | zero =>
        simp at hj
        rw [← hj]
        exact hv
      | succ k =>
        simp at hj
        have hmem : b ∈ t := List.getElem?_mem hj
        exact lt_trans hv (strictlyIncreasing_head_lt t a h b hmem)
    · simp only [SearchIndexSequential, if_neg hv]
      refine ⟨by simpa using iht.1, ?_⟩
      intro j b hj
      cases j with
      | zero =>
        simp at hj
        rw [← hj]
        constructor
        · intro hc
          exact absurd hc hv
        · intro hc
          omega
      | succ k =>
        simp at hj
        rw [iht.2 k b hj]
        omega

theorem binarySearchLoop_eq (value : ℚ) (x : List ℚ) (c : Nat) (hb : IsBracket value x c) :
    ∀ fuel lo hi : Nat, lo ≤ c → c ≤ hi → hi ≤ x.length → hi - lo < fuel →
      binarySearchLoop value x fuel lo hi = c := by
  intro fuel
  induction fuel with
  | zero =>
    intro lo hi _ _ _ h
    omega
  | succ n ih =>
    intro lo hi h1 h2 h3 h4
    by_cases hlt : lo < hi
    · have hmid : lo + (hi - lo) / 2 < x.length := by omega
      have ha : x[lo + (hi - lo) / 2]? = some x[lo + (hi - lo) / 2] :=
        List.getElem?_eq_getElem hmid
      simp only [binarySearchLoop, if_pos hlt, ha]
      by_cases hv : value < x[lo + (hi - lo) / 2]
      · rw [if_pos hv]
        have hc := (hb.2 _ _ ha).1 hv
        exact ih lo (lo + (hi - lo) / 2) h1 hc (by omega) (by omega)
      · rw [if_neg hv]
        have hc : ¬ c ≤ lo + (hi - lo) / 2 := fun h => hv ((hb.2 _ _ ha).2 h)
        exact ih (lo + (hi - lo) / 2 + 1) hi (by omega) h2 h3 (by omega)
    · simp only [binarySearchLoop, if_neg hlt]
      omega

theorem nearDown_eq (value : ℚ) (x : List ℚ) (c : Nat) (hb : IsBracket value x c) :
    ∀ i : Nat, nearDown value x i = min i c := by
  intro i
  induction i with
  | zero => simp [nearDown]
  | succ k ih =>
    cases ha : x[k]? with
    | none =>
      have hk : x.length ≤ k := by
        by_contra hcon
        rw [List.getElem?_eq_getElem (by omega)] at ha
        simp at ha
      have hc := hb.1
      simp only [nearDown, ha, ih]
      omega
    | some a =>
      by_cases hv : value < a
      · have hc := (hb.2 _ _ ha).1 hv
        simp only [nearDown, ha, if_pos hv, ih]
        omega
      · have hc : ¬ c ≤ k := fun h => hv ((hb.2 _ _ ha).2 h)
        simp only [nearDown, ha, if_neg hv]
        omega

theorem nearUp_eq (value : ℚ) (x : List ℚ) (c : Nat) (hb : IsBracket value x c) :
    ∀ fuel i : Nat, i ≤ c → c - i ≤ fuel → nearUp value x fuel i = c := by
  intro fuel
  induction fuel with
  | zero =>
    intro i h1 h2
    simp only [nearUp]
    omega
  | succ n ih =>
    intro i h1 h2
    cases ha : x[i]? with
    | none =>
      have hk : x.length ≤ i := by
        by_contra hcon
        rw [List.getElem?_eq_getElem (by omega)] at ha
        simp at ha
      have hc := hb.1
      simp only [nearUp, ha]
      omega
    | some a =>
      by_cases hv : value < a
      · have hc := (hb.2 _ _ ha).1 hv
        simp only [nearUp, ha, if_pos hv]
        omega
      · have hc : ¬ c ≤ i := fun h => hv ((hb.2 _ _ ha).2 h)
        simp only [nearUp, ha, if_neg hv]
        exact ih (i + 1) (by omega) (by omega)

/-- C15: for every valid table, every query and every stored hint index, the sequential, the
binary and the hint-based search return the same bracket index, an index in `[0, n]` with
`x[i-1] ≤ query < x[i]`. -/
theorem SearchIndex_strategies_agree (x y : List ℚ) (hp : ValidPair x y) (value : ℚ)
    (last_index : Nat) :
    SearchIndex value x SearchMethod.bin last_index =
      SearchIndex value x SearchMethod.seq last_index ∧
    SearchIndex value x SearchMethod.near last_index =
      SearchIndex value x SearchMethod.seq last_index ∧
    IsBracket value x (SearchIndex value x SearchMethod.seq last_index) := by
  have hb := searchIndexSequential_isBracket value x hp.2.2.2.2.2
  refine ⟨?_, ?_, hb⟩
  · exact binarySearchLoop_eq value x _ hb (x.length + 1) 0 x.length (Nat.zero_le _) hb.1
      (Nat.le_refl _) (by omega)
  · have hd := nearDown_eq value x _ hb last_index
    show nearUp value x x.length (nearDown value x last_index) = SearchIndexSequential value x
    rw [hd]
    have hlen := hb.1
    exact nearUp_eq value x _ hb x.length _ (Nat.min_le_right _ _) (by omega)

/-- On the table of scenario 1 the three strategies give the same bracket for the query `3/2`
with the hint 4, and the sequential scan gives 2. -/
theorem SearchIndex_strategies_agree_witness :
    SearchIndex (3 / 2) [0, 1, 2, 3] SearchMethod.bin 4 =
      SearchIndex (3 / 2) [0, 1, 2, 3] SearchMethod.seq 4 ∧
    SearchIndex (3 / 2) [0, 1, 2, 3] SearchMethod.near 4 =
      SearchIndex (3 / 2) [0, 1, 2, 3] SearchMethod.seq 4 ∧
    SearchIndex (3 / 2) [0, 1, 2, 3] SearchMethod.seq 4 = 2 :=
  have h := SearchIndex_strategies_agree [0, 1, 2, 3] [0, 10, 20, 30] validPair_scenario1
    (3 / 2) 4
  ⟨h.1, h.2.1, by norm_num [SearchIndex, SearchIndexSequential]⟩

end LookupTable
